import Mathlib

/-!
# Verification of the rs-simple-proxy request pipeline

A shallow embedding of `src/proxy/service.rs` (`ProxyService::call`,
`ProxyService::early_response`, `ProxyService::clear_state`) together with
theorems about the middleware pipeline it implements.

The embedding turns the sequential body of `call` into pure Lean functions.
Each `for mw in X.lock().await.iter_mut()` loop of the Rust source becomes a
recursive "phase" function over the middleware chain; every hook invocation,
lock acquisition/release, state-store reset and upstream dispatch is recorded
in an explicit event trace so that invocation order, short-circuiting and
lock discipline are stated as properties of the trace.

Rust mutable references are modelled by explicit state passing: a hook that
takes `&mut self`, `&mut req` and `&state` returns the updated middleware
state, the updated request and the updated state store.
-/

/-- The remote socket address of the connection (`std::net::SocketAddr`). -/
structure SocketAddr where
  ip : String
  port : Nat
deriving DecidableEq, Repr

/-- The fixed upstream authority (scheme, host, port) the proxy forwards to. -/
structure Authority where
  scheme : String
  host : String
  port : Nat
deriving DecidableEq, Repr

/-- An HTTP request (`hyper::Request<Body>`), flattened: the URI is split into
scheme/host/port/path/query, plus method, headers and body. -/
structure HttpRequest where
  scheme : String
  host : String
  port : Nat
  path : String
  query : String
  method : String
  headers : List (String × String)
  body : String
deriving DecidableEq, Repr

/-- An HTTP response (`hyper::Response<Body>`). -/
structure HttpResponse where
  status : Nat
  headers : List (String × String)
  body : String
deriving DecidableEq, Repr

/-- Errors flowing through the pipeline.  `transport` stands for
`hyper::Error` (upstream dispatch failure); `hook` stands for a middleware's
own error type (the error arm of a hook result). -/
inductive HError where
  | transport (msg : String)
  | hook (msg : String)
deriving DecidableEq, Repr

instance {ε α : Type} [DecidableEq ε] [DecidableEq α] : DecidableEq (Except ε α) := fun x y =>
  match x, y with
  | .error a, .error b =>
    if h : a = b then .isTrue (by rw [h]) else .isFalse (by simp [h])
  | .error _, .ok _ => .isFalse (by simp)
  | .ok _, .error _ => .isFalse (by simp)
  | .ok a, .ok b =>
    if h : a = b then .isTrue (by rw [h]) else .isFalse (by simp [h])

/-- `MiddlewareResult` from `src/proxy/middleware.rs` as used by `service.rs`:
a hook either lets the pipeline continue (`Next`) or supplies a response
(`RespondWith`). -/
inductive MiddlewareResult where
  | Next : MiddlewareResult
  | RespondWith (res : HttpResponse)
deriving DecidableEq, Repr

/-- The shared state store
(`State = Arc<Mutex<HashMap<(String, u64), serde_json::Value>>>`): a map from
`(scope_name, request_id)` keys to values, modelled as an association list. -/
abbrev State := List ((String × Nat) × String)

/-- `ServiceContext` from `service.rs`: the immutable per-request identity. -/
structure ServiceContext where
  remote_addr : SocketAddr
  req_id : Nat
deriving DecidableEq, Repr

/-- Modelled from the spec: the Response Synthesizer (`Response::from(err)`,
whose `From` impl lives outside `src/`) — a total function converting any
propagated error into a well-formed response with a diagnostic body. -/
def responseFrom (e : HError) : HttpResponse :=
  match e with
  | .transport msg => ⟨502, [], "upstream failure: " ++ msg⟩
  | .hook msg => ⟨500, [], "middleware failure: " ++ msg⟩

/-- Result of one fallible, possibly mutating hook invocation: the returned
`Result<MiddlewareResult, Error>`, the (possibly mutated) request or response
that the hook received by mutable reference, the updated state store, and the
updated middleware instance (`&mut self`). -/
structure HookResult (σ α : Type) where
  result : Except HError MiddlewareResult
  val : α
  state : State
  self : σ
deriving Repr

/-- Result of the notify-only `request_failure` hook
(`Result<(), Error>` plus the mutable-reference effects). -/
structure FailureHookResult (σ : Type) where
  result : Except HError Unit
  state : State
  self : σ
deriving Repr

/-- The `Middleware` trait: six hooks, each receiving mutable access to the
middleware instance (state type `σ`), the request or response, the immutable
context and the shared state store.  `after_request` and
`after_request_async` receive `Option<&mut Response>`. -/
structure Middleware (σ : Type) where
  before_request : σ → HttpRequest → ServiceContext → State → HookResult σ HttpRequest
  before_request_async : σ → HttpRequest → ServiceContext → State → HookResult σ HttpRequest
  request_success : σ → HttpResponse → ServiceContext → State → HookResult σ HttpResponse
  request_failure : σ → HError → ServiceContext → State → FailureHookResult σ
  after_request : σ → Option HttpResponse → ServiceContext → State → HookResult σ (Option HttpResponse)
  after_request_async : σ → Option HttpResponse → ServiceContext → State → HookResult σ (Option HttpResponse)

/-- Observable events of one pipeline run, in execution order.  Every hook
event records the chain index of the middleware, the context it was passed,
the state store it was passed, its input value, the `Result` it returned and
the value it left behind through its mutable reference. -/
inductive Event where
  | clearState : Event
  | lockAcquire : Event
  | lockRelease : Event
  | beforeRequest (idx : Nat) (ctx : ServiceContext) (stIn : State)
      (reqIn : HttpRequest) (result : Except HError MiddlewareResult) (reqOut : HttpRequest)
  | beforeRequestAsync (idx : Nat) (ctx : ServiceContext) (stIn : State)
      (reqIn : HttpRequest) (result : Except HError MiddlewareResult) (reqOut : HttpRequest)
  | dispatch (req : HttpRequest) (result : Except HError HttpResponse)
  | requestFailure (idx : Nat) (ctx : ServiceContext) (stIn : State)
      (result : Except HError Unit)
  | requestSuccess (idx : Nat) (ctx : ServiceContext) (stIn : State)
      (resIn : HttpResponse) (result : Except HError MiddlewareResult) (resMut : HttpResponse)
  | afterRequest (idx : Nat) (ctx : ServiceContext) (stIn : State)
      (resIn : Option HttpResponse) (result : Except HError MiddlewareResult)
      (resMut : Option HttpResponse)
  | afterRequestAsync (idx : Nat) (ctx : ServiceContext) (stIn : State)
      (resIn : Option HttpResponse) (result : Except HError MiddlewareResult)
      (resMut : Option HttpResponse)
deriving DecidableEq, Repr

namespace Event

/-- The context a hook event was passed, if the event is a hook invocation. -/
def ctxOf : Event → Option ServiceContext
  | beforeRequest _ c _ _ _ _ => some c
  | beforeRequestAsync _ c _ _ _ _ => some c
  | requestFailure _ c _ _ => some c
  | requestSuccess _ c _ _ _ _ => some c
  | afterRequest _ c _ _ _ _ => some c
  | afterRequestAsync _ c _ _ _ _ => some c
  | _ => none

/-- The state store a hook event was passed, if the event is a hook invocation. -/
def stInOf : Event → Option State
  | beforeRequest _ _ st _ _ _ => some st
  | beforeRequestAsync _ _ st _ _ _ => some st
  | requestFailure _ _ st _ => some st
  | requestSuccess _ _ st _ _ _ => some st
  | afterRequest _ _ st _ _ _ => some st
  | afterRequestAsync _ _ st _ _ _ => some st
  | _ => none

/-- Whether the event is a hook invocation (one of the six hooks). -/
def isHookEv : Event → Bool
  | beforeRequest _ _ _ _ _ _ => true
  | beforeRequestAsync _ _ _ _ _ _ => true
  | requestFailure _ _ _ _ => true
  | requestSuccess _ _ _ _ _ _ => true
  | afterRequest _ _ _ _ _ _ => true
  | afterRequestAsync _ _ _ _ _ _ => true
  | _ => false

/-- Whether the event is a before-phase hook invocation. -/
def isBeforeEv : Event → Bool
  | beforeRequest _ _ _ _ _ _ => true
  | beforeRequestAsync _ _ _ _ _ _ => true
  | _ => false

/-- The result of a before-phase hook event. -/
def beforeResult : Event → Option (Except HError MiddlewareResult)
  | beforeRequest _ _ _ _ r _ => some r
  | beforeRequestAsync _ _ _ _ r _ => some r
  | _ => none

/-- Whether the event is a `request_success` hook invocation. -/
def isSuccessEv : Event → Bool
  | requestSuccess _ _ _ _ _ _ => true
  | _ => false

/-- Whether the event is a `request_failure` hook invocation. -/
def isFailureEv : Event → Bool
  | requestFailure _ _ _ _ => true
  | _ => false

/-- Whether the event is a (non-suspending) `after_request` hook invocation. -/
def isAfterReqEv : Event → Bool
  | afterRequest _ _ _ _ _ _ => true
  | _ => false

/-- Whether the event is a suspending `after_request_async` hook invocation. -/
def isAfterAsyncEv : Event → Bool
  | afterRequestAsync _ _ _ _ _ _ => true
  | _ => false

/-- Whether the event is an after-phase hook invocation of either kind. -/
def isAfterEv : Event → Bool
  | afterRequest _ _ _ _ _ _ => true
  | afterRequestAsync _ _ _ _ _ _ => true
  | _ => false

/-- Whether the event is a lock acquisition. -/
def isLockAcquireEv : Event → Bool
  | lockAcquire => true
  | _ => false

/-- The chain index of a `request_success` event. -/
def successIdx : Event → Option Nat
  | requestSuccess i _ _ _ _ _ => some i
  | _ => none

/-- The chain index of a `request_failure` event. -/
def failureIdx : Event → Option Nat
  | requestFailure i _ _ _ => some i
  | _ => none

/-- The chain index of an `after_request` (non-suspending) event. -/
def afterReqIdx : Event → Option Nat
  | afterRequest i _ _ _ _ _ => some i
  | _ => none

/-- Hook kind (`true` for the suspending after-hook) and chain index of an
after-phase event. -/
def afterKindIdx : Event → Option (Bool × Nat)
  | afterRequest i _ _ _ _ _ => some (false, i)
  | afterRequestAsync i _ _ _ _ _ => some (true, i)
  | _ => none

/-- The request carried by a dispatch event. -/
def dispatchReqOf : Event → Option HttpRequest
  | dispatch q _ => some q
  | _ => none

/-- The input response of a `request_success` event. -/
def successResIn : Event → Option HttpResponse
  | requestSuccess _ _ _ rin _ _ => some rin
  | _ => none

/-- The input response of an after-phase event that received a response. -/
def afterResIn : Event → Option HttpResponse
  | afterRequest _ _ _ (some rin) _ _ => some rin
  | afterRequestAsync _ _ _ (some rin) _ _ => some rin
  | _ => none

/-- The `Option` response input of an `after_request` event (distinguishing
the post-failure path, where the hook receives `None`). -/
def afterReqOptIn : Event → Option (Option HttpResponse)
  | afterRequest _ _ _ rin _ _ => some rin
  | _ => none

/-- The result of an `after_request` event invoked with `None`
(post-failure path). -/
def afterFailResult : Event → Option (Except HError MiddlewareResult)
  | afterRequest _ _ _ none r _ => some r
  | _ => none

end Event

/-- How the executor folds a hook's `Result<MiddlewareResult, Error>` into the
current response: `Err` is converted through the Synthesizer, `RespondWith`
replaces the response, `Next` keeps the (possibly mutated) current one. -/
def applyOutcome (cur : HttpResponse) (r : Except HError MiddlewareResult) : HttpResponse :=
  match r with
  | .error e => responseFrom e
  | .ok (.RespondWith r) => r
  | .ok .Next => cur

/-- The response a `request_success` event handed to the rest of the phase
(`applyOutcome` of its mutated value and result). -/
def Event.successApplied : Event → Option HttpResponse
  | .requestSuccess _ _ _ _ r v => some (applyOutcome v r)
  | _ => none

/-- The response an after-phase event (invoked with a response) handed to the
rest of the phase. -/
def Event.afterApplied : Event → Option HttpResponse
  | .afterRequest _ _ _ (some rin) r v => some (applyOutcome (v.getD rin) r)
  | .afterRequestAsync _ _ _ (some rin) r v => some (applyOutcome (v.getD rin) r)
  | _ => none

/-- Output of the before-phase loop (`call`, first `for` loop): the events,
the updated chain, the (possibly mutated) request, the state store, and the
early response if some hook short-circuited. -/
structure BeforeOut (σ : Type) where
  trace : List Event
  chain : List (Middleware σ × σ)
  req : HttpRequest
  state : State
  earlyRes : Option HttpResponse

/-- Output of a response-carrying full-chain loop (`request_success` loop,
`early_response` loop, post-success after loop). -/
structure RespOut (σ : Type) where
  trace : List Event
  chain : List (Middleware σ × σ)
  res : HttpResponse
  state : State

/-- Output of the `request_failure` notification loop. -/
structure FailOut (σ : Type) where
  trace : List Event
  chain : List (Middleware σ × σ)
  state : State

/-- Output of the post-failure after loop: `pending` is the
`Result<Response, Error>` being threaded (`res` in the Rust source). -/
structure AfterFailOut (σ : Type) where
  trace : List Event
  chain : List (Middleware σ × σ)
  pending : Except HError HttpResponse
  state : State

/-- The before-phase loop of `call` (service.rs lines 79-101): for each
middleware run `before_request` and, if it returned `Ok(Next)`,
`before_request_async`; on the first `Err` (converted to a response) or
`RespondWith`, stop iterating immediately. -/
def beforePhase (ctx : ServiceContext) : Nat → List (Middleware σ × σ) → HttpRequest → State → BeforeOut σ
  | _, [], req, st => ⟨[], [], req, st, none⟩
  | i, (mw, s) :: rest, req, st =>
    let h := mw.before_request s req ctx st
    let ev := Event.beforeRequest i ctx st req h.result h.val
    match h.result with
    | .error e => ⟨[ev], (mw, h.self) :: rest, h.val, h.state, some (responseFrom e)⟩
    | .ok (.RespondWith r) => ⟨[ev], (mw, h.self) :: rest, h.val, h.state, some r⟩
    | .ok .Next =>
      let h2 := mw.before_request_async h.self h.val ctx h.state
      let ev2 := Event.beforeRequestAsync i ctx h.state h.val h2.result h2.val
      match h2.result with
      | .error e => ⟨[ev, ev2], (mw, h2.self) :: rest, h2.val, h2.state, some (responseFrom e)⟩
      | .ok (.RespondWith r) => ⟨[ev, ev2], (mw, h2.self) :: rest, h2.val, h2.state, some r⟩
      | .ok .Next =>
        let o := beforePhase ctx (i + 1) rest h2.val h2.state
        ⟨ev :: ev2 :: o.trace, (mw, h2.self) :: o.chain, o.req, o.state, o.earlyRes⟩

/-- `ProxyService::early_response` (service.rs lines 166-181): iterate the
entire chain invoking only the non-suspending `after_request`, applying every
result in sequence, no short-circuit. -/
def early_response (ctx : ServiceContext) : Nat → List (Middleware σ × σ) → HttpResponse → State → RespOut σ
  | _, [], res, st => ⟨[], [], res, st⟩
  | i, (mw, s) :: rest, res, st =>
    let h := mw.after_request s (some res) ctx st
    let ev := Event.afterRequest i ctx st (some res) h.result h.val
    let res1 := applyOutcome (h.val.getD res) h.result
    let o := early_response ctx (i + 1) rest res1 h.state
    ⟨ev :: o.trace, (mw, h.self) :: o.chain, o.res, o.state⟩

/-- The `request_failure` notification loop (service.rs lines 109-114):
invoke the notify-only hook on every middleware; an `Err` from the hook is
only logged and discarded. -/
def failurePhase (ctx : ServiceContext) (err : HError) : Nat → List (Middleware σ × σ) → State → FailOut σ
  | _, [], st => ⟨[], [], st⟩
  | i, (mw, s) :: rest, st =>
    let h := mw.request_failure s err ctx st
    let ev := Event.requestFailure i ctx st h.result
    let o := failurePhase ctx err (i + 1) rest h.state
    ⟨ev :: o.trace, (mw, h.self) :: o.chain, o.state⟩

/-- The `request_success` loop (service.rs lines 118-124): invoke
`request_success` on every middleware without short-circuiting; each result
feeds into the next middleware's input. -/
def successPhase (ctx : ServiceContext) : Nat → List (Middleware σ × σ) → HttpResponse → State → RespOut σ
  | _, [], res, st => ⟨[], [], res, st⟩
  | i, (mw, s) :: rest, res, st =>
    let h := mw.request_success s res ctx st
    let ev := Event.requestSuccess i ctx st res h.result h.val
    let res1 := applyOutcome h.val h.result
    let o := successPhase ctx (i + 1) rest res1 h.state
    ⟨ev :: o.trace, (mw, h.self) :: o.chain, o.res, o.state⟩

/-- The post-success after loop (service.rs lines 131-146): for each
middleware invoke `after_request` then `after_request_async`, each applied in
sequence, no short-circuit; one pass over the chain. -/
def afterSuccessPhase (ctx : ServiceContext) : Nat → List (Middleware σ × σ) → HttpResponse → State → RespOut σ
  | _, [], res, st => ⟨[], [], res, st⟩
  | i, (mw, s) :: rest, res, st =>
    let h := mw.after_request s (some res) ctx st
    let ev := Event.afterRequest i ctx st (some res) h.result h.val
    let res1 := applyOutcome (h.val.getD res) h.result
    let h2 := mw.after_request_async h.self (some res1) ctx h.state
    let ev2 := Event.afterRequestAsync i ctx h.state (some res1) h2.result h2.val
    let res2 := applyOutcome (h2.val.getD res1) h2.result
    let o := afterSuccessPhase ctx (i + 1) rest res2 h2.state
    ⟨ev :: ev2 :: o.trace, (mw, h2.self) :: o.chain, o.res, o.state⟩

/-- The post-failure after loop (service.rs lines 150-158): invoke
`after_request` with `None` on every middleware; an `Err` or `RespondWith`
replaces the pending `Result` with an `Ok` response, `Next` keeps it; the
suspending after-hook is never invoked here. -/
def afterFailurePhase (ctx : ServiceContext) : Nat → List (Middleware σ × σ) → Except HError HttpResponse → State → AfterFailOut σ
  | _, [], pending, st => ⟨[], [], pending, st⟩
  | i, (mw, s) :: rest, pending, st =>
    let h := mw.after_request s none ctx st
    let pending1 : Except HError HttpResponse :=
      match h.result with
      | .error e => .ok (responseFrom e)
      | .ok (.RespondWith r) => .ok r
      | .ok .Next => pending
    let ev := Event.afterRequest i ctx st none h.result h.val
    let o := afterFailurePhase ctx (i + 1) rest pending1 h.state
    ⟨ev :: o.trace, (mw, h.self) :: o.chain, o.pending, o.state⟩

/-- `ProxyService` (service.rs lines 22-28): the per-connection service.  The
`hyper::Client` is an external collaborator and is passed to `call` as the
abstract `upstream` function; the `SmallRng` is modelled by a `Nat` seed
advanced by an abstract `rngNext`. -/
structure ProxyService (σ : Type) where
  chain : List (Middleware σ × σ)
  state : State
  remote_addr : SocketAddr
  rng : Nat

/-- Result of one pipeline run: the event trace, the returned
`Result<Response, hyper::Error>`, and the service afterwards. -/
structure RunOutput (σ : Type) where
  trace : List Event
  result : Except HError HttpResponse
  service : ProxyService σ

/-- `ProxyService::clear_state` (service.rs lines 186-192): clear the shared
state store in full.  (The Rust source locks a poisoning `std::sync::Mutex`
first; in this sequential model the lock always succeeds.) -/
def clear_state (_ : State) : State := []

/-- Modelled from the spec: the Upstream Client Adapter's authority rewrite
(the adapter feeding `client.request` lives outside `src/`) — swap
scheme/host/port for the fixed upstream authority, preserving path, query,
method, headers and body. -/
def rewriteToUpstream (auth : Authority) (req : HttpRequest) : HttpRequest :=
  { req with scheme := auth.scheme, host := auth.host, port := auth.port }

/-- The context built at the start of `call` (service.rs lines 65-70): one
`rng.next_u64()` draw plus the connection's remote address. -/
def svcContext (rngNext : Nat → Nat × Nat) (svc : ProxyService σ) : ServiceContext :=
  ⟨svc.remote_addr, (rngNext svc.rng).1⟩

/-- The state reset plus before-phase prefix of `call` (service.rs lines 50,
79-101): clear the state store, then run the short-circuiting before loop
over the whole chain. -/
def runBefore (rngNext : Nat → Nat × Nat) (svc : ProxyService σ) (req : HttpRequest) : BeforeOut σ :=
  beforePhase (svcContext rngNext svc) 0 svc.chain req (clear_state svc.state)

/-- `ProxyService::call` (service.rs lines 49-162).  `upstream` abstracts the
network behaviour of `client.request` applied to the rewritten request;
`rngNext` abstracts `SmallRng::next_u64`. -/
def ProxyService.call (upstream : HttpRequest → Except HError HttpResponse)
    (rngNext : Nat → Nat × Nat) (auth : Authority)
    (svc : ProxyService σ) (req : HttpRequest) : RunOutput σ :=
  let ctx := svcContext rngNext svc
  let bp := runBefore rngNext svc req
  let trB := Event.clearState :: Event.lockAcquire :: (bp.trace ++ [Event.lockRelease])
  match bp.earlyRes with
  | some r =>
    let er := early_response ctx 0 bp.chain r bp.state
    ⟨trB ++ Event.lockAcquire :: (er.trace ++ [Event.lockRelease]),
     .ok er.res,
     ⟨er.chain, er.state, svc.remote_addr, (rngNext svc.rng).2⟩⟩
  | none =>
    let dreq := rewriteToUpstream auth bp.req
    let dres := upstream dreq
    match dres with
    | .error e =>
      let fp := failurePhase ctx e 0 bp.chain bp.state
      let ap := afterFailurePhase ctx 0 fp.chain (.error e) fp.state
      ⟨trB ++ Event.dispatch dreq (.error e) ::
         Event.lockAcquire :: (fp.trace ++ Event.lockRelease ::
           Event.lockAcquire :: (ap.trace ++ [Event.lockRelease])),
       ap.pending,
       ⟨ap.chain, ap.state, svc.remote_addr, (rngNext svc.rng).2⟩⟩
    | .ok res0 =>
      let sp := successPhase ctx 0 bp.chain res0 bp.state
      let ap := afterSuccessPhase ctx 0 sp.chain sp.res sp.state
      ⟨trB ++ Event.dispatch dreq (.ok res0) ::
         Event.lockAcquire :: (sp.trace ++ Event.lockRelease ::
           Event.lockAcquire :: (ap.trace ++ [Event.lockRelease])),
       .ok ap.res,
       ⟨ap.chain, ap.state, svc.remote_addr, (rngNext svc.rng).2⟩⟩

/-- One step of the post-failure result threading (the `match` in service.rs
lines 152-156): an `Err` from the hook becomes an `Ok` synthesized response,
`RespondWith` becomes an `Ok` response, `Next` keeps the pending result. -/
def pfFoldStep (acc : Except HError HttpResponse) (r : Except HError MiddlewareResult) :
    Except HError HttpResponse :=
  match r with
  | .error e => .ok (responseFrom e)
  | .ok (.RespondWith x) => .ok x
  | .ok .Next => acc

/-- The early response a breaking before-phase hook event produced: the
synthesized response for `Err`, the supplied response for `RespondWith`,
nothing for `Next` (no break). -/
def Event.appliedBefore : Event → Option HttpResponse
  | .beforeRequest _ _ _ _ (.error e) _ => some (responseFrom e)
  | .beforeRequest _ _ _ _ (.ok (.RespondWith r)) _ => some r
  | .beforeRequestAsync _ _ _ _ (.error e) _ => some (responseFrom e)
  | .beforeRequestAsync _ _ _ _ (.ok (.RespondWith r)) _ => some r
  | _ => none

/-! ## Concrete sample values for evaluation and witnesses -/

/-- A hook that returns `Ok(Next)` and changes nothing — the default
behaviour of an unimplemented hook. -/
def noOpHook {σ α : Type} : σ → α → ServiceContext → State → HookResult σ α :=
  fun s v _ st => ⟨.ok .Next, v, st, s⟩

/-- A middleware implementing no hooks: every hook defaults to
"continue, no change". -/
def Middleware.noOp {σ : Type} : Middleware σ where
  before_request := noOpHook
  before_request_async := noOpHook
  request_success := noOpHook
  request_failure := fun s _ _ st => ⟨.ok (), st, s⟩
  after_request := noOpHook
  after_request_async := noOpHook

def addr0 : SocketAddr := ⟨"127.0.0.1", 40000⟩

def auth0 : Authority := ⟨"http", "upstream.local", 8080⟩

def req0 : HttpRequest :=
  ⟨"http", "proxy.local", 80, "/a", "q=1", "GET", [("host", "proxy.local")], "hello"⟩

def res200 : HttpResponse := ⟨200, [("server", "up")], "ok"⟩

def res401 : HttpResponse := ⟨401, [], "unauthorized"⟩

def rng0 : Nat → Nat × Nat := fun n => (2 * n + 1, n + 1)

def upstreamOk : HttpRequest → Except HError HttpResponse := fun _ => .ok res200

def upstreamRefused : HttpRequest → Except HError HttpResponse :=
  fun _ => .error (.transport "connection refused")

/-- A middleware whose `before_request` short-circuits with a 401 response. -/
def mwRespond401 : Middleware Unit :=
  { Middleware.noOp with
    before_request := fun s _ _ st => ⟨.ok (.RespondWith res401), req0, st, s⟩ }

/-- A middleware whose `before_request` fails with a hook error. -/
def mwBeforeErr : Middleware Unit :=
  { Middleware.noOp with
    before_request := fun s v _ st => ⟨.error (.hook "boom"), v, st, s⟩ }

/-- A middleware whose `after_request` fails with a hook error. -/
def mwAfterErr : Middleware Unit :=
  { Middleware.noOp with
    after_request := fun s v _ st => ⟨.error (.hook "late boom"), v, st, s⟩ }

/-- A middleware whose `request_success` replaces the response. -/
def mwSuccessRespond : Middleware Unit :=
  { Middleware.noOp with
    request_success := fun s _ _ st => ⟨.ok (.RespondWith res401), res200, st, s⟩ }

/-- A middleware whose `request_failure` hook itself fails. -/
def mwFailureErr : Middleware Unit :=
  { Middleware.noOp with
    request_failure := fun s _ _ st => ⟨.error (.hook "notify boom"), st, s⟩ }

/-- A middleware whose `before_request_async` fails with a hook error. -/
def mwBeforeAsyncErr : Middleware Unit :=
  { Middleware.noOp with
    before_request_async := fun s v _ st => ⟨.error (.hook "async boom"), v, st, s⟩ }

/-- A middleware whose `after_request_async` fails with a hook error. -/
def mwAfterAsyncErr : Middleware Unit :=
  { Middleware.noOp with
    after_request_async := fun s v _ st => ⟨.error (.hook "async late boom"), v, st, s⟩ }

example :
    (ProxyService.call upstreamOk rng0 auth0 ⟨[(Middleware.noOp, ())], [], addr0, 0⟩ req0).result
      = .ok res200 := by decide

example :
    (ProxyService.call upstreamRefused rng0 auth0 ⟨[(Middleware.noOp, ())], [], addr0, 0⟩ req0).result
      = .error (.transport "connection refused") := by decide

/-! ## Lock discipline instrumentation -/

/-- Number of lock acquisitions recorded in a trace. -/
def countLockAcquires (tr : List Event) : Nat :=
  (tr.filter Event.isLockAcquireEv).length

/-- Lock depth after scanning a trace, starting from depth `d`. -/
def depthAfter : Nat -> List Event -> Nat
  | d, [] => d
  | d, Event.lockAcquire :: tr => depthAfter (d + 1) tr
  | d, Event.lockRelease :: tr => depthAfter (d - 1) tr
  | d, _ :: tr => depthAfter d tr

/-- The lock depths at which each upstream dispatch in the trace occurred. -/
def dispatchDepths : Nat -> List Event -> List Nat
  | _, [] => []
  | d, Event.lockAcquire :: tr => dispatchDepths (d + 1) tr
  | d, Event.lockRelease :: tr => dispatchDepths (d - 1) tr
  | d, Event.dispatch _ _ :: tr => d :: dispatchDepths d tr
  | d, _ :: tr => dispatchDepths d tr

/-- The lock depths at which each hook invocation in the trace occurred. -/
def hookDepths : Nat -> List Event -> List Nat
  | _, [] => []
  | d, Event.lockAcquire :: tr => hookDepths (d + 1) tr
  | d, Event.lockRelease :: tr => hookDepths (d - 1) tr
  | d, e :: tr => if e.isHookEv then d :: hookDepths d tr else hookDepths d tr

/-- Replace a middleware's `request_failure` hook so that it returns `r`
instead of its own result, keeping the hook's effects on the state store and
on the middleware instance unchanged. -/
def setFailureResult {σ : Type} (m : Middleware σ)
    (r : σ -> HError -> ServiceContext -> State -> Except HError Unit) : Middleware σ :=
  { m with
    request_failure := fun s e c st =>
      { result := r s e c st,
        state := (m.request_failure s e c st).state,
        self := (m.request_failure s e c st).self } }

/-! ## Event kind facts -/

theorem Event.before_only {e : Event} (h : e.isBeforeEv = true) :
    e.successIdx = none ∧ e.failureIdx = none ∧ e.afterReqIdx = none ∧
    e.afterKindIdx = none ∧ e.afterFailResult = none ∧ e.dispatchReqOf = none ∧
    e.isSuccessEv = false ∧ e.isFailureEv = false ∧ e.isAfterAsyncEv = false ∧
    e.isAfterEv = false ∧ e.isHookEv = true ∧ e.isLockAcquireEv = false := by
  cases e <;> simp_all [isBeforeEv, successIdx, failureIdx, afterReqIdx, afterKindIdx,
    afterFailResult, dispatchReqOf, isSuccessEv, isFailureEv, isAfterAsyncEv, isAfterEv,
    isHookEv, isLockAcquireEv]

theorem Event.success_only {e : Event} (h : e.isSuccessEv = true) :
    e.failureIdx = none ∧ e.afterReqIdx = none ∧ e.afterKindIdx = none ∧
    e.afterFailResult = none ∧ e.dispatchReqOf = none ∧ e.isBeforeEv = false ∧
    e.isFailureEv = false ∧ e.isAfterAsyncEv = false ∧ e.isAfterEv = false ∧
    e.isHookEv = true ∧ e.isLockAcquireEv = false := by
  cases e <;> simp_all [isBeforeEv, successIdx, failureIdx, afterReqIdx, afterKindIdx,
    afterFailResult, dispatchReqOf, isSuccessEv, isFailureEv, isAfterAsyncEv, isAfterEv,
    isHookEv, isLockAcquireEv]

theorem Event.failure_only {e : Event} (h : e.isFailureEv = true) :
    e.successIdx = none ∧ e.afterReqIdx = none ∧ e.afterKindIdx = none ∧
    e.afterFailResult = none ∧ e.dispatchReqOf = none ∧ e.isBeforeEv = false ∧
    e.isSuccessEv = false ∧ e.isAfterAsyncEv = false ∧ e.isAfterEv = false ∧
    e.isHookEv = true ∧ e.isLockAcquireEv = false := by
  cases e <;> simp_all [isBeforeEv, successIdx, failureIdx, afterReqIdx, afterKindIdx,
    afterFailResult, dispatchReqOf, isSuccessEv, isFailureEv, isAfterAsyncEv, isAfterEv,
    isHookEv, isLockAcquireEv]

theorem Event.afterReq_only {e : Event} (h : e.isAfterReqEv = true) :
    e.successIdx = none ∧ e.failureIdx = none ∧ e.dispatchReqOf = none ∧
    e.isBeforeEv = false ∧ e.isSuccessEv = false ∧ e.isFailureEv = false ∧
    e.isAfterAsyncEv = false ∧ e.isHookEv = true ∧ e.isLockAcquireEv = false := by
  cases e <;> simp_all [isBeforeEv, successIdx, failureIdx, afterReqIdx,
    dispatchReqOf, isSuccessEv, isFailureEv, isAfterAsyncEv, isAfterReqEv,
    isHookEv, isLockAcquireEv]

theorem Event.after_only {e : Event} (h : e.isAfterEv = true) :
    e.successIdx = none ∧ e.failureIdx = none ∧ e.dispatchReqOf = none ∧
    e.isBeforeEv = false ∧ e.isSuccessEv = false ∧ e.isFailureEv = false ∧
    e.isHookEv = true ∧ e.isLockAcquireEv = false := by
  cases e <;> simp_all [isBeforeEv, successIdx, failureIdx, dispatchReqOf,
    isSuccessEv, isFailureEv, isAfterEv, isHookEv, isLockAcquireEv]

/-! ## Per-phase invariants -/

theorem beforePhase_forall {σ : Type} (ctx : ServiceContext) (i : Nat)
    (l : List (Middleware σ × σ)) (req : HttpRequest) (st : State) :
    ∀ e ∈ (beforePhase ctx i l req st).trace, e.isBeforeEv = true ∧ e.ctxOf = some ctx := by
  induction l generalizing i req st with
  | nil => intro e he; simp [beforePhase] at he
  | cons p rest ih =>
    obtain ⟨mw, s⟩ := p
    intro e he
    rcases hr : (mw.before_request s req ctx st).result with e1 | mr
    · simp only [beforePhase, hr] at he
      simp at he
      subst he
      simp [Event.isBeforeEv, Event.ctxOf]
    · rcases mr with _ | r2
      · rcases hr2 : (mw.before_request_async (mw.before_request s req ctx st).self
            (mw.before_request s req ctx st).val ctx (mw.before_request s req ctx st).state).result
            with e2 | mr2
        · simp only [beforePhase, hr, hr2] at he
          simp at he
          rcases he with he | he <;> subst he <;> simp [Event.isBeforeEv, Event.ctxOf]
        · rcases mr2 with _ | r3
          · simp only [beforePhase, hr, hr2] at he
            simp at he
            rcases he with he | he | he
            · subst he; simp [Event.isBeforeEv, Event.ctxOf]
            · subst he; simp [Event.isBeforeEv, Event.ctxOf]
            · exact ih _ _ _ _ he
          · simp only [beforePhase, hr, hr2] at he
            simp at he
            rcases he with he | he <;> subst he <;> simp [Event.isBeforeEv, Event.ctxOf]
      · simp only [beforePhase, hr] at he
        simp at he
        subst he
        simp [Event.isBeforeEv, Event.ctxOf]

theorem successPhase_forall {σ : Type} (ctx : ServiceContext) (i : Nat)
    (l : List (Middleware σ × σ)) (res : HttpResponse) (st : State) :
    ∀ e ∈ (successPhase ctx i l res st).trace, e.isSuccessEv = true ∧ e.ctxOf = some ctx := by
  induction l generalizing i res st with
  | nil => intro e he; simp [successPhase] at he
  | cons p rest ih =>
    obtain ⟨mw, s⟩ := p
    intro e he
    simp only [successPhase] at he
    simp at he
    rcases he with he | he
    · subst he; simp [Event.isSuccessEv, Event.ctxOf]
    · exact ih _ _ _ _ he

theorem failurePhase_forall {σ : Type} (ctx : ServiceContext) (err : HError) (i : Nat)
    (l : List (Middleware σ × σ)) (st : State) :
    ∀ e ∈ (failurePhase ctx err i l st).trace, e.isFailureEv = true ∧ e.ctxOf = some ctx := by
  induction l generalizing i st with
  | nil => intro e he; simp [failurePhase] at he
  | cons p rest ih =>
    obtain ⟨mw, s⟩ := p
    intro e he
    simp only [failurePhase] at he
    simp at he
    rcases he with he | he
    · subst he; simp [Event.isFailureEv, Event.ctxOf]
    · exact ih _ _ _ he

theorem early_response_forall {σ : Type} (ctx : ServiceContext) (i : Nat)
    (l : List (Middleware σ × σ)) (res : HttpResponse) (st : State) :
    ∀ e ∈ (early_response ctx i l res st).trace,
      e.isAfterReqEv = true ∧ e.ctxOf = some ctx ∧ e.afterFailResult = none ∧
      e.afterKindIdx = some (false, (e.afterReqIdx).getD 0) := by
  induction l generalizing i res st with
  | nil => intro e he; simp [early_response] at he
  | cons p rest ih =>
    obtain ⟨mw, s⟩ := p
    intro e he
    simp only [early_response] at he
    simp at he
    rcases he with he | he
    · subst he
      simp [Event.isAfterReqEv, Event.ctxOf, Event.afterFailResult, Event.afterKindIdx,
        Event.afterReqIdx]
    · exact ih _ _ _ _ he

theorem afterFailurePhase_forall {σ : Type} (ctx : ServiceContext) (i : Nat)
    (l : List (Middleware σ × σ)) (pending : Except HError HttpResponse) (st : State) :
    ∀ e ∈ (afterFailurePhase ctx i l pending st).trace,
      e.isAfterReqEv = true ∧ e.ctxOf = some ctx ∧ e.afterReqOptIn = some none := by
  induction l generalizing i pending st with
  | nil => intro e he; simp [afterFailurePhase] at he
  | cons p rest ih =>
    obtain ⟨mw, s⟩ := p
    intro e he
    simp only [afterFailurePhase] at he
    simp at he
    rcases he with he | he
    · subst he
      simp [Event.isAfterReqEv, Event.ctxOf, Event.afterReqOptIn]
    · exact ih _ _ _ _ he

theorem afterSuccessPhase_forall {σ : Type} (ctx : ServiceContext) (i : Nat)
    (l : List (Middleware σ × σ)) (res : HttpResponse) (st : State) :
    ∀ e ∈ (afterSuccessPhase ctx i l res st).trace,
      e.isAfterEv = true ∧ e.ctxOf = some ctx ∧ e.afterFailResult = none := by
  induction l generalizing i res st with
  | nil => intro e he; simp [afterSuccessPhase] at he
  | cons p rest ih =>
    obtain ⟨mw, s⟩ := p
    intro e he
    simp only [afterSuccessPhase] at he
    simp at he
    rcases he with he | he | he
    · subst he; simp [Event.isAfterEv, Event.ctxOf, Event.afterFailResult]
    · subst he; simp [Event.isAfterEv, Event.ctxOf, Event.afterFailResult]
    · exact ih _ _ _ _ he

theorem beforePhase_chain_length {σ : Type} (ctx : ServiceContext) (i : Nat)
    (l : List (Middleware σ × σ)) (req : HttpRequest) (st : State) :
    (beforePhase ctx i l req st).chain.length = l.length := by
  induction l generalizing i req st with
  | nil => simp [beforePhase]
  | cons p rest ih =>
    obtain ⟨mw, s⟩ := p
    rcases hr : (mw.before_request s req ctx st).result with e1 | mr
    · simp [beforePhase, hr]
    · rcases mr with _ | r2
      · rcases hr2 : (mw.before_request_async (mw.before_request s req ctx st).self
            (mw.before_request s req ctx st).val ctx (mw.before_request s req ctx st).state).result
            with e2 | mr2
        · simp [beforePhase, hr, hr2]
        · rcases mr2 with _ | r3
          · simp [beforePhase, hr, hr2, ih]
          · simp [beforePhase, hr, hr2]
      · simp [beforePhase, hr]

theorem failurePhase_chain_length {σ : Type} (ctx : ServiceContext) (err : HError) (i : Nat)
    (l : List (Middleware σ × σ)) (st : State) :
    (failurePhase ctx err i l st).chain.length = l.length := by
  induction l generalizing i st with
  | nil => simp [failurePhase]
  | cons p rest ih => obtain ⟨mw, s⟩ := p; simp [failurePhase, ih]

theorem successPhase_chain_length {σ : Type} (ctx : ServiceContext) (i : Nat)
    (l : List (Middleware σ × σ)) (res : HttpResponse) (st : State) :
    (successPhase ctx i l res st).chain.length = l.length := by
  induction l generalizing i res st with
  | nil => simp [successPhase]
  | cons p rest ih => obtain ⟨mw, s⟩ := p; simp [successPhase, ih]

theorem failurePhase_idxs {σ : Type} (ctx : ServiceContext) (err : HError) (i : Nat)
    (l : List (Middleware σ × σ)) (st : State) :
    (failurePhase ctx err i l st).trace.filterMap Event.failureIdx = List.range' i l.length := by
  induction l generalizing i st with
  | nil => simp [failurePhase]
  | cons p rest ih =>
    obtain ⟨mw, s⟩ := p
    simp [failurePhase, Event.failureIdx, ih, List.range'_succ]

theorem successPhase_idxs {σ : Type} (ctx : ServiceContext) (i : Nat)
    (l : List (Middleware σ × σ)) (res : HttpResponse) (st : State) :
    (successPhase ctx i l res st).trace.filterMap Event.successIdx = List.range' i l.length := by
  induction l generalizing i res st with
  | nil => simp [successPhase]
  | cons p rest ih =>
    obtain ⟨mw, s⟩ := p
    simp [successPhase, Event.successIdx, ih, List.range'_succ]

theorem early_response_idxs {σ : Type} (ctx : ServiceContext) (i : Nat)
    (l : List (Middleware σ × σ)) (res : HttpResponse) (st : State) :
    (early_response ctx i l res st).trace.filterMap Event.afterReqIdx = List.range' i l.length := by
  induction l generalizing i res st with
  | nil => simp [early_response]
  | cons p rest ih =>
    obtain ⟨mw, s⟩ := p
    simp [early_response, Event.afterReqIdx, ih, List.range'_succ]

theorem afterFailurePhase_idxs {σ : Type} (ctx : ServiceContext) (i : Nat)
    (l : List (Middleware σ × σ)) (pending : Except HError HttpResponse) (st : State) :
    (afterFailurePhase ctx i l pending st).trace.filterMap Event.afterReqIdx
      = List.range' i l.length := by
  induction l generalizing i pending st with
  | nil => simp [afterFailurePhase]
  | cons p rest ih =>
    obtain ⟨mw, s⟩ := p
    simp [afterFailurePhase, Event.afterReqIdx, ih, List.range'_succ]

theorem afterSuccessPhase_kindIdxs {σ : Type} (ctx : ServiceContext) (i : Nat)
    (l : List (Middleware σ × σ)) (res : HttpResponse) (st : State) :
    (afterSuccessPhase ctx i l res st).trace.filterMap Event.afterKindIdx
      = (List.range' i l.length).flatMap (fun k => [(false, k), (true, k)]) := by
  induction l generalizing i res st with
  | nil => simp [afterSuccessPhase]
  | cons p rest ih =>
    obtain ⟨mw, s⟩ := p
    simp [afterSuccessPhase, Event.afterKindIdx, ih, List.range'_succ]

theorem successPhase_head_resIn {σ : Type} (ctx : ServiceContext) (i : Nat)
    (l : List (Middleware σ × σ)) (res : HttpResponse) (st : State) :
    ∀ e, (successPhase ctx i l res st).trace.head? = some e → e.successResIn = some res := by
  cases l with
  | nil => intro e he; simp [successPhase] at he
  | cons p rest =>
    obtain ⟨mw, s⟩ := p
    intro e he
    simp only [successPhase, List.head?_cons, Option.some.injEq] at he
    subst he
    simp [Event.successResIn]

theorem afterSuccessPhase_head_resIn {σ : Type} (ctx : ServiceContext) (i : Nat)
    (l : List (Middleware σ × σ)) (res : HttpResponse) (st : State) :
    ∀ e, (afterSuccessPhase ctx i l res st).trace.head? = some e → e.afterResIn = some res := by
  cases l with
  | nil => intro e he; simp [afterSuccessPhase] at he
  | cons p rest =>
    obtain ⟨mw, s⟩ := p
    intro e he
    simp only [afterSuccessPhase, List.head?_cons, Option.some.injEq] at he
    subst he
    simp [Event.afterResIn]

theorem beforePhase_head_stIn {σ : Type} (ctx : ServiceContext) (i : Nat)
    (l : List (Middleware σ × σ)) (req : HttpRequest) (st : State) :
    ∀ e, (beforePhase ctx i l req st).trace.head? = some e → e.stInOf = some st := by
  cases l with
  | nil => intro e he; simp [beforePhase] at he
  | cons p rest =>
    obtain ⟨mw, s⟩ := p
    intro e he
    rcases hr : (mw.before_request s req ctx st).result with e1 | mr
    · simp only [beforePhase, hr, List.head?_cons, Option.some.injEq] at he
      subst he; simp [Event.stInOf]
    · rcases mr with _ | r2
      · rcases hr2 : (mw.before_request_async (mw.before_request s req ctx st).self
            (mw.before_request s req ctx st).val ctx (mw.before_request s req ctx st).state).result
            with e2 | mr2
        · simp only [beforePhase, hr, hr2, List.head?_cons, Option.some.injEq] at he
          subst he; simp [Event.stInOf]
        · rcases mr2 with _ | r3
          · simp only [beforePhase, hr, hr2, List.head?_cons, Option.some.injEq] at he
            subst he; simp [Event.stInOf]
          · simp only [beforePhase, hr, hr2, List.head?_cons, Option.some.injEq] at he
            subst he; simp [Event.stInOf]
      · simp only [beforePhase, hr, List.head?_cons, Option.some.injEq] at he
        subst he; simp [Event.stInOf]

theorem successPhase_chain {σ : Type} (ctx : ServiceContext) (i : Nat)
    (l : List (Middleware σ × σ)) (res : HttpResponse) (st : State) :
    List.Chain' (fun a b => Event.successResIn b = Event.successApplied a)
      (successPhase ctx i l res st).trace := by
  induction l generalizing i res st with
  | nil => simp [successPhase]
  | cons p rest ih =>
    obtain ⟨mw, s⟩ := p
    simp only [successPhase]
    rw [List.chain'_cons']
    refine ⟨?_, ih _ _ _⟩
    intro b hb
    have hhead := successPhase_head_resIn ctx (i + 1) rest
      (applyOutcome (mw.request_success s res ctx st).val (mw.request_success s res ctx st).result)
      (mw.request_success s res ctx st).state b hb
    simp [hhead, Event.successApplied]

theorem afterSuccessPhase_chain {σ : Type} (ctx : ServiceContext) (i : Nat)
    (l : List (Middleware σ × σ)) (res : HttpResponse) (st : State) :
    List.Chain' (fun a b => Event.afterResIn b = Event.afterApplied a)
      (afterSuccessPhase ctx i l res st).trace := by
  induction l generalizing i res st with
  | nil => simp [afterSuccessPhase]
  | cons p rest ih =>
    obtain ⟨mw, s⟩ := p
    simp only [afterSuccessPhase]
    rw [List.chain'_cons']
    constructor
    · intro b hb
      simp only [List.head?_cons, Option.mem_def, Option.some.injEq] at hb
      subst hb
      simp [Event.afterResIn, Event.afterApplied]
    · rw [List.chain'_cons']
      constructor
      · intro b hb
        have hhead := afterSuccessPhase_head_resIn ctx (i + 1) _ _ _ b hb
        simp [hhead, Event.afterApplied]
      · exact ih _ _ _

theorem afterFailurePhase_fold {σ : Type} (ctx : ServiceContext) (i : Nat)
    (l : List (Middleware σ × σ)) (pending : Except HError HttpResponse) (st : State) :
    (afterFailurePhase ctx i l pending st).pending =
      List.foldl pfFoldStep pending
        ((afterFailurePhase ctx i l pending st).trace.filterMap Event.afterFailResult) := by
  induction l generalizing i pending st with
  | nil => simp [afterFailurePhase]
  | cons p rest ih =>
    obtain ⟨mw, s⟩ := p
    simp only [afterFailurePhase, List.filterMap_cons]
    simp only [Event.afterFailResult]
    rw [List.foldl_cons]
    have : pfFoldStep pending (mw.after_request s none ctx st).result =
        (match (mw.after_request s none ctx st).result with
          | .error e => Except.ok (responseFrom e)
          | .ok (.RespondWith r) => Except.ok r
          | .ok .Next => pending) := rfl
    rw [this]
    exact ih _ _ _

theorem beforePhase_shape {σ : Type} (ctx : ServiceContext) (i : Nat)
    (l : List (Middleware σ × σ)) (req : HttpRequest) (st : State) :
    ((beforePhase ctx i l req st).earlyRes = none ∧
      ∀ e ∈ (beforePhase ctx i l req st).trace, e.beforeResult = some (.ok .Next)) ∨
    (∃ tr1 elast r, (beforePhase ctx i l req st).earlyRes = some r ∧
      (beforePhase ctx i l req st).trace = tr1 ++ [elast] ∧
      (∀ e ∈ tr1, e.beforeResult = some (.ok .Next)) ∧
      elast.appliedBefore = some r) := by
  induction l generalizing i req st with
  | nil => left; simp [beforePhase]
  | cons p rest ih =>
    obtain ⟨mw, s⟩ := p
    rcases hr : (mw.before_request s req ctx st).result with e1 | mr
    · right
      exact ⟨[], Event.beforeRequest i ctx st req (.error e1) (mw.before_request s req ctx st).val,
        responseFrom e1, by simp [beforePhase, hr], by simp [beforePhase, hr], by simp,
        by simp [Event.appliedBefore]⟩
    · rcases mr with _ | r2
      · rcases hr2 : (mw.before_request_async (mw.before_request s req ctx st).self
            (mw.before_request s req ctx st).val ctx (mw.before_request s req ctx st).state).result
            with e2 | mr2
        · right
          refine ⟨[Event.beforeRequest i ctx st req (.ok .Next) (mw.before_request s req ctx st).val],
            Event.beforeRequestAsync i ctx (mw.before_request s req ctx st).state
              (mw.before_request s req ctx st).val (.error e2)
              (mw.before_request_async (mw.before_request s req ctx st).self
                (mw.before_request s req ctx st).val ctx (mw.before_request s req ctx st).state).val,
            responseFrom e2, by simp [beforePhase, hr, hr2], by simp [beforePhase, hr, hr2],
            ?_, by simp [Event.appliedBefore]⟩
          intro e he
          simp at he
          subst he
          simp [Event.beforeResult]
        · rcases mr2 with _ | r3
          · rcases ih (i + 1) (mw.before_request_async (mw.before_request s req ctx st).self
                (mw.before_request s req ctx st).val ctx
                (mw.before_request s req ctx st).state).val
                (mw.before_request_async (mw.before_request s req ctx st).self
                  (mw.before_request s req ctx st).val ctx
                  (mw.before_request s req ctx st).state).state
              with ⟨hnone, hall⟩ | ⟨tr1, elast, r, hsome, htr, hall, happ⟩
            · left
              constructor
              · simp [beforePhase, hr, hr2, hnone]
              · intro e he
                simp only [beforePhase, hr, hr2] at he
                simp at he
                rcases he with he | he | he
                · subst he; simp [Event.beforeResult]
                · subst he; simp [Event.beforeResult]
                · exact hall e he
            · right
              refine ⟨Event.beforeRequest i ctx st req (.ok .Next) (mw.before_request s req ctx st).val ::
                  Event.beforeRequestAsync i ctx (mw.before_request s req ctx st).state
                    (mw.before_request s req ctx st).val (.ok .Next)
                    (mw.before_request_async (mw.before_request s req ctx st).self
                      (mw.before_request s req ctx st).val ctx
                      (mw.before_request s req ctx st).state).val :: tr1,
                elast, r, by simp [beforePhase, hr, hr2, hsome], ?_, ?_, happ⟩
              · simp [beforePhase, hr, hr2, htr]
              · intro e he
                simp at he
                rcases he with he | he | he
                · subst he; simp [Event.beforeResult]
                · subst he; simp [Event.beforeResult]
                · exact hall e he
          · right
            refine ⟨[Event.beforeRequest i ctx st req (.ok .Next) (mw.before_request s req ctx st).val],
              Event.beforeRequestAsync i ctx (mw.before_request s req ctx st).state
                (mw.before_request s req ctx st).val (.ok (.RespondWith r3))
                (mw.before_request_async (mw.before_request s req ctx st).self
                  (mw.before_request s req ctx st).val ctx
                  (mw.before_request s req ctx st).state).val,
              r3, by simp [beforePhase, hr, hr2], by simp [beforePhase, hr, hr2],
              ?_, by simp [Event.appliedBefore]⟩
            intro e he
            simp at he
            subst he
            simp [Event.beforeResult]
      · right
        exact ⟨[], Event.beforeRequest i ctx st req (.ok (.RespondWith r2))
            (mw.before_request s req ctx st).val,
          r2, by simp [beforePhase, hr], by simp [beforePhase, hr], by simp,
          by simp [Event.appliedBefore]⟩

/-! ## Path characterizations of `call` -/

theorem call_early_eq {σ : Type} (upstream : HttpRequest → Except HError HttpResponse)
    (rngNext : Nat → Nat × Nat) (auth : Authority) (svc : ProxyService σ) (req : HttpRequest)
    (r : HttpResponse) (h : (runBefore rngNext svc req).earlyRes = some r) :
    svc.call upstream rngNext auth req =
      ⟨Event.clearState :: Event.lockAcquire ::
         ((runBefore rngNext svc req).trace ++ [Event.lockRelease]) ++
         Event.lockAcquire ::
           ((early_response (svcContext rngNext svc) 0 (runBefore rngNext svc req).chain r
               (runBefore rngNext svc req).state).trace ++ [Event.lockRelease]),
       .ok (early_response (svcContext rngNext svc) 0 (runBefore rngNext svc req).chain r
           (runBefore rngNext svc req).state).res,
       ⟨(early_response (svcContext rngNext svc) 0 (runBefore rngNext svc req).chain r
           (runBefore rngNext svc req).state).chain,
        (early_response (svcContext rngNext svc) 0 (runBefore rngNext svc req).chain r
           (runBefore rngNext svc req).state).state,
        svc.remote_addr, (rngNext svc.rng).2⟩⟩ := by
  simp only [ProxyService.call, h]

theorem call_failure_eq {σ : Type} (upstream : HttpRequest → Except HError HttpResponse)
    (rngNext : Nat → Nat × Nat) (auth : Authority) (svc : ProxyService σ) (req : HttpRequest)
    (e : HError) (h : (runBefore rngNext svc req).earlyRes = none)
    (hd : upstream (rewriteToUpstream auth (runBefore rngNext svc req).req) = .error e) :
    svc.call upstream rngNext auth req =
      ⟨Event.clearState :: Event.lockAcquire ::
         ((runBefore rngNext svc req).trace ++ [Event.lockRelease]) ++
         Event.dispatch (rewriteToUpstream auth (runBefore rngNext svc req).req) (.error e) ::
           Event.lockAcquire ::
             ((failurePhase (svcContext rngNext svc) e 0 (runBefore rngNext svc req).chain
                 (runBefore rngNext svc req).state).trace ++
               Event.lockRelease :: Event.lockAcquire ::
                 ((afterFailurePhase (svcContext rngNext svc) 0
                     (failurePhase (svcContext rngNext svc) e 0 (runBefore rngNext svc req).chain
                       (runBefore rngNext svc req).state).chain (.error e)
                     (failurePhase (svcContext rngNext svc) e 0 (runBefore rngNext svc req).chain
                       (runBefore rngNext svc req).state).state).trace ++ [Event.lockRelease])),
       (afterFailurePhase (svcContext rngNext svc) 0
           (failurePhase (svcContext rngNext svc) e 0 (runBefore rngNext svc req).chain
             (runBefore rngNext svc req).state).chain (.error e)
           (failurePhase (svcContext rngNext svc) e 0 (runBefore rngNext svc req).chain
             (runBefore rngNext svc req).state).state).pending,
       ⟨(afterFailurePhase (svcContext rngNext svc) 0
           (failurePhase (svcContext rngNext svc) e 0 (runBefore rngNext svc req).chain
             (runBefore rngNext svc req).state).chain (.error e)
           (failurePhase (svcContext rngNext svc) e 0 (runBefore rngNext svc req).chain
             (runBefore rngNext svc req).state).state).chain,
        (afterFailurePhase (svcContext rngNext svc) 0
           (failurePhase (svcContext rngNext svc) e 0 (runBefore rngNext svc req).chain
             (runBefore rngNext svc req).state).chain (.error e)
           (failurePhase (svcContext rngNext svc) e 0 (runBefore rngNext svc req).chain
             (runBefore rngNext svc req).state).state).state,
        svc.remote_addr, (rngNext svc.rng).2⟩⟩ := by
  simp only [ProxyService.call, h, hd]

theorem call_success_eq {σ : Type} (upstream : HttpRequest → Except HError HttpResponse)
    (rngNext : Nat → Nat × Nat) (auth : Authority) (svc : ProxyService σ) (req : HttpRequest)
    (res0 : HttpResponse) (h : (runBefore rngNext svc req).earlyRes = none)
    (hd : upstream (rewriteToUpstream auth (runBefore rngNext svc req).req) = .ok res0) :
    svc.call upstream rngNext auth req =
      ⟨Event.clearState :: Event.lockAcquire ::
         ((runBefore rngNext svc req).trace ++ [Event.lockRelease]) ++
         Event.dispatch (rewriteToUpstream auth (runBefore rngNext svc req).req) (.ok res0) ::
           Event.lockAcquire ::
             ((successPhase (svcContext rngNext svc) 0 (runBefore rngNext svc req).chain res0
                 (runBefore rngNext svc req).state).trace ++
               Event.lockRelease :: Event.lockAcquire ::
                 ((afterSuccessPhase (svcContext rngNext svc) 0
                     (successPhase (svcContext rngNext svc) 0 (runBefore rngNext svc req).chain res0
                       (runBefore rngNext svc req).state).chain
                     (successPhase (svcContext rngNext svc) 0 (runBefore rngNext svc req).chain res0
                       (runBefore rngNext svc req).state).res
                     (successPhase (svcContext rngNext svc) 0 (runBefore rngNext svc req).chain res0
                       (runBefore rngNext svc req).state).state).trace ++ [Event.lockRelease])),
       .ok (afterSuccessPhase (svcContext rngNext svc) 0
           (successPhase (svcContext rngNext svc) 0 (runBefore rngNext svc req).chain res0
             (runBefore rngNext svc req).state).chain
           (successPhase (svcContext rngNext svc) 0 (runBefore rngNext svc req).chain res0
             (runBefore rngNext svc req).state).res
           (successPhase (svcContext rngNext svc) 0 (runBefore rngNext svc req).chain res0
             (runBefore rngNext svc req).state).state).res,
       ⟨(afterSuccessPhase (svcContext rngNext svc) 0
           (successPhase (svcContext rngNext svc) 0 (runBefore rngNext svc req).chain res0
             (runBefore rngNext svc req).state).chain
           (successPhase (svcContext rngNext svc) 0 (runBefore rngNext svc req).chain res0
             (runBefore rngNext svc req).state).res
           (successPhase (svcContext rngNext svc) 0 (runBefore rngNext svc req).chain res0
             (runBefore rngNext svc req).state).state).chain,
        (afterSuccessPhase (svcContext rngNext svc) 0
           (successPhase (svcContext rngNext svc) 0 (runBefore rngNext svc req).chain res0
             (runBefore rngNext svc req).state).chain
           (successPhase (svcContext rngNext svc) 0 (runBefore rngNext svc req).chain res0
             (runBefore rngNext svc req).state).res
           (successPhase (svcContext rngNext svc) 0 (runBefore rngNext svc req).chain res0
             (runBefore rngNext svc req).state).state).state,
        svc.remote_addr, (rngNext svc.rng).2⟩⟩ := by
  simp only [ProxyService.call, h, hd]

/-! ## Lock discipline lemmas -/

theorem depthAfter_append (d : Nat) (l1 l2 : List Event) :
    depthAfter d (l1 ++ l2) = depthAfter (depthAfter d l1) l2 := by
  induction l1 generalizing d with
  | nil => simp [depthAfter]
  | cons e tr ih => cases e <;> simp [depthAfter, ih]

theorem dispatchDepths_append (d : Nat) (l1 l2 : List Event) :
    dispatchDepths d (l1 ++ l2) = dispatchDepths d l1 ++ dispatchDepths (depthAfter d l1) l2 := by
  induction l1 generalizing d with
  | nil => simp [dispatchDepths, depthAfter]
  | cons e tr ih => cases e <;> simp [dispatchDepths, depthAfter, ih]

theorem hookDepths_append (d : Nat) (l1 l2 : List Event) :
    hookDepths d (l1 ++ l2) = hookDepths d l1 ++ hookDepths (depthAfter d l1) l2 := by
  induction l1 generalizing d with
  | nil => simp [hookDepths, depthAfter]
  | cons e tr ih =>
    cases e <;> simp [hookDepths, depthAfter, Event.isHookEv, ih]

theorem hookTrace_scans {d : Nat} {tr : List Event} (h : ∀ e ∈ tr, e.isHookEv = true) :
    depthAfter d tr = d ∧ dispatchDepths d tr = [] ∧
      hookDepths d tr = List.replicate tr.length d := by
  induction tr generalizing d with
  | nil => simp [depthAfter, dispatchDepths, hookDepths]
  | cons e tr ih =>
    have he := h e (by simp)
    have htr : ∀ x ∈ tr, x.isHookEv = true := fun x hx => h x (by simp [hx])
    obtain ⟨h1, h2, h3⟩ := ih (d := d) htr
    clear h ih
    cases e <;>
      simp_all [depthAfter, dispatchDepths, hookDepths, Event.isHookEv, List.replicate_succ]

theorem countLockAcquires_append (l1 l2 : List Event) :
    countLockAcquires (l1 ++ l2) = countLockAcquires l1 + countLockAcquires l2 := by
  simp [countLockAcquires, List.filter_append]

theorem countLockAcquires_hookTrace {tr : List Event} (h : ∀ e ∈ tr, e.isHookEv = true) :
    countLockAcquires tr = 0 := by
  simp only [countLockAcquires, List.length_eq_zero, List.filter_eq_nil_iff]
  intro e he
  have := h e he
  cases e <;> simp_all [Event.isHookEv, Event.isLockAcquireEv]

theorem Event.hook_of_before {e : Event} (h : e.isBeforeEv = true) : e.isHookEv = true := by
  cases e <;> simp_all [isBeforeEv, isHookEv]

theorem Event.hook_of_success {e : Event} (h : e.isSuccessEv = true) : e.isHookEv = true := by
  cases e <;> simp_all [isSuccessEv, isHookEv]

theorem Event.hook_of_failure {e : Event} (h : e.isFailureEv = true) : e.isHookEv = true := by
  cases e <;> simp_all [isFailureEv, isHookEv]

theorem Event.hook_of_afterReq {e : Event} (h : e.isAfterReqEv = true) : e.isHookEv = true := by
  cases e <;> simp_all [isAfterReqEv, isHookEv]

theorem Event.hook_of_after {e : Event} (h : e.isAfterEv = true) : e.isHookEv = true := by
  cases e <;> simp_all [isAfterEv, isHookEv]

theorem filter_lock_hookTrace {tr : List Event} (h : ∀ e ∈ tr, e.isHookEv = true) :
    tr.filter Event.isLockAcquireEv = [] := by
  rw [List.filter_eq_nil_iff]
  intro e he
  have := h e he
  cases e <;> simp_all [Event.isHookEv, Event.isLockAcquireEv]

/-! ## The claims -/

theorem hookDepths_nil (d : Nat) : hookDepths d [] = [] := rfl

theorem hookDepths_cons_clear (d : Nat) (tr : List Event) :
    hookDepths d (Event.clearState :: tr) = hookDepths d tr := rfl

theorem hookDepths_cons_acq (d : Nat) (tr : List Event) :
    hookDepths d (Event.lockAcquire :: tr) = hookDepths (d + 1) tr := rfl

theorem hookDepths_cons_rel (d : Nat) (tr : List Event) :
    hookDepths d (Event.lockRelease :: tr) = hookDepths (d - 1) tr := rfl

theorem hookDepths_cons_dispatch (d : Nat) (q : HttpRequest)
    (r : Except HError HttpResponse) (tr : List Event) :
    hookDepths d (Event.dispatch q r :: tr) = hookDepths d tr := rfl

theorem depthAfter_nil (d : Nat) : depthAfter d [] = d := rfl

theorem depthAfter_cons_clear (d : Nat) (tr : List Event) :
    depthAfter d (Event.clearState :: tr) = depthAfter d tr := rfl

theorem depthAfter_cons_acq (d : Nat) (tr : List Event) :
    depthAfter d (Event.lockAcquire :: tr) = depthAfter (d + 1) tr := rfl

theorem depthAfter_cons_rel (d : Nat) (tr : List Event) :
    depthAfter d (Event.lockRelease :: tr) = depthAfter (d - 1) tr := rfl

theorem depthAfter_cons_dispatch (d : Nat) (q : HttpRequest)
    (r : Except HError HttpResponse) (tr : List Event) :
    depthAfter d (Event.dispatch q r :: tr) = depthAfter d tr := rfl

/-- C6 (amended): the middleware-chain lock is not held for the whole pipeline
run.  Instead it is acquired separately for each phase loop: every hook
invocation happens at lock depth 1, but the upstream dispatch happens at lock
depth 0 (the lock is released before the network round trip), and the run
acquires the lock two times (early-exit path) or three times (dispatch
paths), never once for the whole run. -/
theorem claim6_lock_per_phase {σ : Type} (upstream : HttpRequest → Except HError HttpResponse)
    (rngNext : Nat → Nat × Nat) (auth : Authority) (svc : ProxyService σ) (req : HttpRequest) :
    (∀ d ∈ dispatchDepths 0 (svc.call upstream rngNext auth req).trace, d = 0) ∧
    (∀ d ∈ hookDepths 0 (svc.call upstream rngNext auth req).trace, d = 1) ∧
    (countLockAcquires (svc.call upstream rngNext auth req).trace = 2 ∨
      countLockAcquires (svc.call upstream rngNext auth req).trace = 3) := by
  have hB : ∀ e ∈ (runBefore rngNext svc req).trace, e.isHookEv = true := fun e he =>
    Event.hook_of_before (beforePhase_forall _ _ _ _ _ e he).1
  rcases hbe : (runBefore rngNext svc req).earlyRes with _ | r
  · rcases hd : upstream (rewriteToUpstream auth (runBefore rngNext svc req).req) with e | res0
    · rw [call_failure_eq upstream rngNext auth svc req e hbe hd]
      have hF : ∀ x ∈ (failurePhase (svcContext rngNext svc) e 0 (runBefore rngNext svc req).chain
          (runBefore rngNext svc req).state).trace, x.isHookEv = true := fun x hx =>
        Event.hook_of_failure (failurePhase_forall _ _ _ _ _ x hx).1
      have hA : ∀ x ∈ (afterFailurePhase (svcContext rngNext svc) 0
          (failurePhase (svcContext rngNext svc) e 0 (runBefore rngNext svc req).chain
            (runBefore rngNext svc req).state).chain (.error e)
          (failurePhase (svcContext rngNext svc) e 0 (runBefore rngNext svc req).chain
            (runBefore rngNext svc req).state).state).trace, x.isHookEv = true := fun x hx =>
        Event.hook_of_afterReq (afterFailurePhase_forall _ _ _ _ _ x hx).1
      obtain ⟨hB1, hB2, hB3⟩ := hookTrace_scans (d := 1) hB
      obtain ⟨hF1, hF2, hF3⟩ := hookTrace_scans (d := 1) hF
      obtain ⟨hA1, hA2, hA3⟩ := hookTrace_scans (d := 1) hA
      refine ⟨?_, ?_, ?_⟩
      · simp [dispatchDepths, depthAfter, dispatchDepths_append, depthAfter_append,
          hB1, hB2, hF1, hF2, hA1, hA2]
      · intro d hd2
        simp [List.cons_append, List.append_assoc, List.singleton_append,
          hookDepths_cons_clear, hookDepths_cons_acq, hookDepths_cons_rel,
          hookDepths_cons_dispatch, hookDepths_nil, hookDepths_append,
          depthAfter_nil, depthAfter_cons_clear, depthAfter_cons_acq,
          depthAfter_cons_rel, depthAfter_cons_dispatch, depthAfter_append,
          hB1, hB3, hF1, hF3, hA1, hA3, List.mem_replicate] at hd2
        tauto
      · right
        simp [countLockAcquires, List.filter_append, Event.isLockAcquireEv,
          filter_lock_hookTrace hB, filter_lock_hookTrace hF, filter_lock_hookTrace hA]
    · rw [call_success_eq upstream rngNext auth svc req res0 hbe hd]
      have hS : ∀ x ∈ (successPhase (svcContext rngNext svc) 0 (runBefore rngNext svc req).chain
          res0 (runBefore rngNext svc req).state).trace, x.isHookEv = true := fun x hx =>
        Event.hook_of_success (successPhase_forall _ _ _ _ _ x hx).1
      have hA : ∀ x ∈ (afterSuccessPhase (svcContext rngNext svc) 0
          (successPhase (svcContext rngNext svc) 0 (runBefore rngNext svc req).chain res0
            (runBefore rngNext svc req).state).chain
          (successPhase (svcContext rngNext svc) 0 (runBefore rngNext svc req).chain res0
            (runBefore rngNext svc req).state).res
          (successPhase (svcContext rngNext svc) 0 (runBefore rngNext svc req).chain res0
            (runBefore rngNext svc req).state).state).trace, x.isHookEv = true := fun x hx =>
        Event.hook_of_after (afterSuccessPhase_forall _ _ _ _ _ x hx).1
      obtain ⟨hB1, hB2, hB3⟩ := hookTrace_scans (d := 1) hB
      obtain ⟨hS1, hS2, hS3⟩ := hookTrace_scans (d := 1) hS
      obtain ⟨hA1, hA2, hA3⟩ := hookTrace_scans (d := 1) hA
      refine ⟨?_, ?_, ?_⟩
      · simp [dispatchDepths, depthAfter, dispatchDepths_append, depthAfter_append,
          hB1, hB2, hS1, hS2, hA1, hA2]
      · intro d hd2
        simp [List.cons_append, List.append_assoc, List.singleton_append,
          hookDepths_cons_clear, hookDepths_cons_acq, hookDepths_cons_rel,
          hookDepths_cons_dispatch, hookDepths_nil, hookDepths_append,
          depthAfter_nil, depthAfter_cons_clear, depthAfter_cons_acq,
          depthAfter_cons_rel, depthAfter_cons_dispatch, depthAfter_append,
          hB1, hB3, hS1, hS3, hA1, hA3, List.mem_replicate] at hd2
        tauto
      · right
        simp [countLockAcquires, List.filter_append, Event.isLockAcquireEv,
          filter_lock_hookTrace hB, filter_lock_hookTrace hS, filter_lock_hookTrace hA]
  · rw [call_early_eq upstream rngNext auth svc req r hbe]
    have hE : ∀ x ∈ (early_response (svcContext rngNext svc) 0 (runBefore rngNext svc req).chain
        r (runBefore rngNext svc req).state).trace, x.isHookEv = true := fun x hx =>
      Event.hook_of_afterReq (early_response_forall _ _ _ _ _ x hx).1
    obtain ⟨hB1, hB2, hB3⟩ := hookTrace_scans (d := 1) hB
    obtain ⟨hE1, hE2, hE3⟩ := hookTrace_scans (d := 1) hE
    refine ⟨?_, ?_, ?_⟩
    · simp [dispatchDepths, depthAfter, dispatchDepths_append, depthAfter_append,
        hB1, hB2, hE1, hE2]
    · intro d hd2
      simp [List.cons_append, List.append_assoc, List.singleton_append,
        hookDepths_cons_clear, hookDepths_cons_acq, hookDepths_cons_rel,
        hookDepths_cons_dispatch, hookDepths_nil, hookDepths_append,
        depthAfter_nil, depthAfter_cons_clear, depthAfter_cons_acq,
        depthAfter_cons_rel, depthAfter_cons_dispatch, depthAfter_append,
        hB1, hB3, hE1, hE3, List.mem_replicate] at hd2
      tauto
    · left
      simp [countLockAcquires, List.filter_append, Event.isLockAcquireEv,
        filter_lock_hookTrace hB, filter_lock_hookTrace hE]

/-- C6 counterexample: on a one-middleware chain with a successful upstream,
the run acquires the chain lock three times (not once), and the upstream
dispatch happens at lock depth 0, i.e. while the chain lock is not held —
refuting the claim that the lock is acquired once and held for the entire
run including the upstream round trip. -/
theorem claim6_counterexample :
    countLockAcquires ((ProxyService.call upstreamOk rng0 auth0
        ⟨[(Middleware.noOp, ())], [], addr0, 0⟩ req0).trace) = 3 ∧
    dispatchDepths 0 ((ProxyService.call upstreamOk rng0 auth0
        ⟨[(Middleware.noOp, ())], [], addr0, 0⟩ req0).trace) = [0] := by
  constructor <;> decide

theorem beforePhase_cons_head {σ : Type} (ctx : ServiceContext) (i : Nat)
    (p : Middleware σ × σ) (l : List (Middleware σ × σ)) (req : HttpRequest) (st : State) :
    ∃ x tr2, (beforePhase ctx i (p :: l) req st).trace = x :: tr2 ∧ x.stInOf = some st := by
  obtain ⟨mw, s⟩ := p
  rcases hr : (mw.before_request s req ctx st).result with e1 | mr
  · refine ⟨Event.beforeRequest i ctx st req (.error e1) (mw.before_request s req ctx st).val,
      [], ?_, ?_⟩
    · simp [beforePhase, hr]
    · simp [Event.stInOf]
  · rcases mr with _ | r2
    · rcases hr2 : (mw.before_request_async (mw.before_request s req ctx st).self
          (mw.before_request s req ctx st).val ctx (mw.before_request s req ctx st).state).result
          with e2 | mr2
      · refine ⟨Event.beforeRequest i ctx st req (.ok .Next) (mw.before_request s req ctx st).val,
          [Event.beforeRequestAsync i ctx (mw.before_request s req ctx st).state
            (mw.before_request s req ctx st).val (.error e2)
            (mw.before_request_async (mw.before_request s req ctx st).self
              (mw.before_request s req ctx st).val ctx
              (mw.before_request s req ctx st).state).val], ?_, ?_⟩
        · simp [beforePhase, hr, hr2]
        · simp [Event.stInOf]
      · rcases mr2 with _ | r3
        · refine ⟨Event.beforeRequest i ctx st req (.ok .Next)
              (mw.before_request s req ctx st).val,
            Event.beforeRequestAsync i ctx (mw.before_request s req ctx st).state
              (mw.before_request s req ctx st).val (.ok .Next)
              (mw.before_request_async (mw.before_request s req ctx st).self
                (mw.before_request s req ctx st).val ctx
                (mw.before_request s req ctx st).state).val ::
              (beforePhase ctx (i + 1) l
                (mw.before_request_async (mw.before_request s req ctx st).self
                  (mw.before_request s req ctx st).val ctx
                  (mw.before_request s req ctx st).state).val
                (mw.before_request_async (mw.before_request s req ctx st).self
                  (mw.before_request s req ctx st).val ctx
                  (mw.before_request s req ctx st).state).state).trace, ?_, ?_⟩
          · simp [beforePhase, hr, hr2]
          · simp [Event.stInOf]
        · refine ⟨Event.beforeRequest i ctx st req (.ok .Next)
              (mw.before_request s req ctx st).val,
            [Event.beforeRequestAsync i ctx (mw.before_request s req ctx st).state
              (mw.before_request s req ctx st).val (.ok (.RespondWith r3))
              (mw.before_request_async (mw.before_request s req ctx st).self
                (mw.before_request s req ctx st).val ctx
                (mw.before_request s req ctx st).state).val], ?_, ?_⟩
          · simp [beforePhase, hr, hr2]
          · simp [Event.stInOf]
    · refine ⟨Event.beforeRequest i ctx st req (.ok (.RespondWith r2))
          (mw.before_request s req ctx st).val, [], ?_, ?_⟩
      · simp [beforePhase, hr]
      · simp [Event.stInOf]

theorem call_trace_prefix {σ : Type} (upstream : HttpRequest → Except HError HttpResponse)
    (rngNext : Nat → Nat × Nat) (auth : Authority) (svc : ProxyService σ) (req : HttpRequest) :
    ∃ rest, (svc.call upstream rngNext auth req).trace =
      Event.clearState :: Event.lockAcquire :: ((runBefore rngNext svc req).trace ++ rest) := by
  rcases hbe : (runBefore rngNext svc req).earlyRes with _ | r
  · rcases hd : upstream (rewriteToUpstream auth (runBefore rngNext svc req).req) with e | res0
    · rw [call_failure_eq upstream rngNext auth svc req e hbe hd]
      refine ⟨Event.lockRelease ::
        Event.dispatch (rewriteToUpstream auth (runBefore rngNext svc req).req) (.error e) ::
          Event.lockAcquire ::
            ((failurePhase (svcContext rngNext svc) e 0 (runBefore rngNext svc req).chain
                (runBefore rngNext svc req).state).trace ++
              Event.lockRelease :: Event.lockAcquire ::
                ((afterFailurePhase (svcContext rngNext svc) 0
                    (failurePhase (svcContext rngNext svc) e 0 (runBefore rngNext svc req).chain
                      (runBefore rngNext svc req).state).chain (.error e)
                    (failurePhase (svcContext rngNext svc) e 0 (runBefore rngNext svc req).chain
                      (runBefore rngNext svc req).state).state).trace ++
                  [Event.lockRelease])), by simp⟩
    · rw [call_success_eq upstream rngNext auth svc req res0 hbe hd]
      refine ⟨Event.lockRelease ::
        Event.dispatch (rewriteToUpstream auth (runBefore rngNext svc req).req) (.ok res0) ::
          Event.lockAcquire ::
            ((successPhase (svcContext rngNext svc) 0 (runBefore rngNext svc req).chain res0
                (runBefore rngNext svc req).state).trace ++
              Event.lockRelease :: Event.lockAcquire ::
                ((afterSuccessPhase (svcContext rngNext svc) 0
                    (successPhase (svcContext rngNext svc) 0 (runBefore rngNext svc req).chain res0
                      (runBefore rngNext svc req).state).chain
                    (successPhase (svcContext rngNext svc) 0 (runBefore rngNext svc req).chain res0
                      (runBefore rngNext svc req).state).res
                    (successPhase (svcContext rngNext svc) 0 (runBefore rngNext svc req).chain res0
                      (runBefore rngNext svc req).state).state).trace ++
                  [Event.lockRelease])), by simp⟩
  · rw [call_early_eq upstream rngNext auth svc req r hbe]
    refine ⟨Event.lockRelease :: Event.lockAcquire ::
      ((early_response (svcContext rngNext svc) 0 (runBefore rngNext svc req).chain r
          (runBefore rngNext svc req).state).trace ++ [Event.lockRelease]), by simp⟩

/-- C5: the shared state store is unconditionally cleared in full before any
hook of the request runs: `clear_state` empties any store, the whole outcome
of `call` is independent of whatever the store held beforehand (even entries
written by a previous request on the same connection), and the first hook
invocation of the run — if any — receives the empty store. -/
theorem claim5_state_reset {σ : Type} (upstream : HttpRequest → Except HError HttpResponse)
    (rngNext : Nat → Nat × Nat) (auth : Authority) (svc : ProxyService σ) (req : HttpRequest)
    (st1 st2 : State) :
    clear_state st1 = [] ∧
    ProxyService.call upstream rngNext auth ⟨svc.chain, st1, svc.remote_addr, svc.rng⟩ req =
      ProxyService.call upstream rngNext auth ⟨svc.chain, st2, svc.remote_addr, svc.rng⟩ req ∧
    (((svc.call upstream rngNext auth req).trace.filterMap Event.stInOf).head? = some [] ∨
      (svc.call upstream rngNext auth req).trace.filterMap Event.stInOf = []) := by
  refine ⟨rfl, ?_, ?_⟩
  · simp [ProxyService.call, runBefore, svcContext, clear_state]
  · rcases hc : svc.chain with _ | ⟨p, l⟩
    · right
      rcases hu : upstream (rewriteToUpstream auth req) with e | r
      · have hbe : (runBefore rngNext svc req).earlyRes = none := by
          simp [runBefore, hc, beforePhase]
        have hreq : (runBefore rngNext svc req).req = req := by
          simp [runBefore, hc, beforePhase]
        rw [call_failure_eq upstream rngNext auth svc req e hbe (by rw [hreq]; exact hu)]
        simp [runBefore, hc, beforePhase, failurePhase, afterFailurePhase, Event.stInOf]
      · have hbe : (runBefore rngNext svc req).earlyRes = none := by
          simp [runBefore, hc, beforePhase]
        have hreq : (runBefore rngNext svc req).req = req := by
          simp [runBefore, hc, beforePhase]
        rw [call_success_eq upstream rngNext auth svc req r hbe (by rw [hreq]; exact hu)]
        simp [runBefore, hc, beforePhase, successPhase, afterSuccessPhase, Event.stInOf]
    · left
      obtain ⟨rest, hrest⟩ := call_trace_prefix upstream rngNext auth svc req
      obtain ⟨x, tr2, hx, hst⟩ := beforePhase_cons_head (svcContext rngNext svc) 0 p l req
        (clear_state svc.state)
      have hbt : (runBefore rngNext svc req).trace = x :: tr2 := by
        rw [runBefore, hc]; exact hx
      rw [hrest, hbt]
      simp [Event.stInOf, hst, clear_state]
      rw [clear_state] at hst
      simp [hst]

/-- C8: `request_id` is drawn from the per-connection generator exactly once
per request (the service's rng seed advances by exactly one `rngNext` step),
and the same (request_id, remote_address) context value is passed unchanged
to every hook invocation of the run, in every phase. -/
theorem claim8_context_threaded {σ : Type} (upstream : HttpRequest → Except HError HttpResponse)
    (rngNext : Nat → Nat × Nat) (auth : Authority) (svc : ProxyService σ) (req : HttpRequest) :
    (svc.call upstream rngNext auth req).service.rng = (rngNext svc.rng).2 ∧
    ∀ e ∈ (svc.call upstream rngNext auth req).trace, ∀ c, e.ctxOf = some c →
      c = svcContext rngNext svc := by
  rcases hbe : (runBefore rngNext svc req).earlyRes with _ | r
  · rcases hd : upstream (rewriteToUpstream auth (runBefore rngNext svc req).req) with e | res0
    · rw [call_failure_eq upstream rngNext auth svc req e hbe hd]
      refine ⟨rfl, ?_⟩
      intro x hx c hc
      simp at hx
      rcases hx with hx | hx | hx | hx | hx | hx | hx | hx | hx
      · subst hx; simp [Event.ctxOf] at hc
      · subst hx; simp [Event.ctxOf] at hc
      · have := (beforePhase_forall _ _ _ _ _ x hx).2
        rw [this] at hc
        exact (Option.some.injEq _ _ ▸ hc).symm
      · subst hx; simp [Event.ctxOf] at hc
      · subst hx; simp [Event.ctxOf] at hc
      · subst hx; simp [Event.ctxOf] at hc
      · have := (failurePhase_forall _ _ _ _ _ x hx).2
        rw [this] at hc
        exact (Option.some.injEq _ _ ▸ hc).symm
      · subst hx; simp [Event.ctxOf] at hc
      · rcases hx with hx | hx | hx
        · subst hx; simp [Event.ctxOf] at hc
        · have := (afterFailurePhase_forall _ _ _ _ _ x hx).2.1
          rw [this] at hc
          exact (Option.some.injEq _ _ ▸ hc).symm
        · subst hx; simp [Event.ctxOf] at hc
    · rw [call_success_eq upstream rngNext auth svc req res0 hbe hd]
      refine ⟨rfl, ?_⟩
      intro x hx c hc
      simp at hx
      rcases hx with hx | hx | hx | hx | hx | hx | hx | hx | hx
      · subst hx; simp [Event.ctxOf] at hc
      · subst hx; simp [Event.ctxOf] at hc
      · have := (beforePhase_forall _ _ _ _ _ x hx).2
        rw [this] at hc
        exact (Option.some.injEq _ _ ▸ hc).symm
      · subst hx; simp [Event.ctxOf] at hc
      · subst hx; simp [Event.ctxOf] at hc
      · subst hx; simp [Event.ctxOf] at hc
      · have := (successPhase_forall _ _ _ _ _ x hx).2
        rw [this] at hc
        exact (Option.some.injEq _ _ ▸ hc).symm
      · subst hx; simp [Event.ctxOf] at hc
      · rcases hx with hx | hx | hx
        · subst hx; simp [Event.ctxOf] at hc
        · have := (afterSuccessPhase_forall _ _ _ _ _ x hx).2.1
          rw [this] at hc
          exact (Option.some.injEq _ _ ▸ hc).symm
        · subst hx; simp [Event.ctxOf] at hc
  · rw [call_early_eq upstream rngNext auth svc req r hbe]
    refine ⟨rfl, ?_⟩
    intro x hx c hc
    simp at hx
    rcases hx with hx | hx | hx | hx | hx | hx | hx
    · subst hx; simp [Event.ctxOf] at hc
    · subst hx; simp [Event.ctxOf] at hc
    · have := (beforePhase_forall _ _ _ _ _ x hx).2
      rw [this] at hc
      exact (Option.some.injEq _ _ ▸ hc).symm
    · subst hx; simp [Event.ctxOf] at hc
    · subst hx; simp [Event.ctxOf] at hc
    · have := (early_response_forall _ _ _ _ _ x hx).2.1
      rw [this] at hc
      exact (Option.some.injEq _ _ ▸ hc).symm
    · subst hx; simp [Event.ctxOf] at hc

/-- C1: if some middleware's `before_request` or `before_request_async`
short-circuits the before-phase (returns `RespondWith` or `Err`), then the
upstream is never contacted, no `request_success`, `request_failure` or
suspending after-hook runs, every before event except the breaking (last) one
returned `Ok(Next)` — so no before hook of any later middleware is invoked —
the breaking hook's response (synthesized for `Err`) seeds the restricted
post-phase, the non-suspending `after_request` runs on every middleware of
the entire chain in registration order, and the final response is the result
of folding those `after_request` results from that seed. -/
theorem claim1_before_short_circuit {σ : Type}
    (upstream : HttpRequest → Except HError HttpResponse) (rngNext : Nat → Nat × Nat)
    (auth : Authority) (svc : ProxyService σ) (req : HttpRequest) (r : HttpResponse)
    (h : (runBefore rngNext svc req).earlyRes = some r) :
    ((svc.call upstream rngNext auth req).trace.filterMap Event.dispatchReqOf = []) ∧
    ((svc.call upstream rngNext auth req).trace.filter Event.isSuccessEv = []) ∧
    ((svc.call upstream rngNext auth req).trace.filter Event.isFailureEv = []) ∧
    ((svc.call upstream rngNext auth req).trace.filter Event.isAfterAsyncEv = []) ∧
    (∀ e ∈ (runBefore rngNext svc req).trace.dropLast, e.beforeResult = some (.ok .Next)) ∧
    (∃ elast, (runBefore rngNext svc req).trace.getLast? = some elast ∧
      elast.appliedBefore = some r) ∧
    ((svc.call upstream rngNext auth req).trace.filterMap Event.afterReqIdx
      = List.range svc.chain.length) ∧
    ((svc.call upstream rngNext auth req).result =
      .ok (early_response (svcContext rngNext svc) 0 (runBefore rngNext svc req).chain r
        (runBefore rngNext svc req).state).res) := by
  have hB : ∀ e ∈ (runBefore rngNext svc req).trace,
      e.isBeforeEv = true ∧ e.ctxOf = some (svcContext rngNext svc) :=
    beforePhase_forall (svcContext rngNext svc) 0 svc.chain req (clear_state svc.state)
  have hE := early_response_forall (svcContext rngNext svc) 0 (runBefore rngNext svc req).chain r
    (runBefore rngNext svc req).state
  have hshape := beforePhase_shape (svcContext rngNext svc) 0 svc.chain req (clear_state svc.state)
  rw [call_early_eq upstream rngNext auth svc req r h]
  refine ⟨?_, ?_, ?_, ?_, ?_, ?_, ?_, rfl⟩
  · rw [List.filterMap_eq_nil_iff]
    intro e he
    simp at he
    rcases he with he | he | he | he | he | he | he
    · subst he; simp [Event.dispatchReqOf]
    · subst he; simp [Event.dispatchReqOf]
    · exact (Event.before_only (hB e he).1).2.2.2.2.2.1
    · subst he; simp [Event.dispatchReqOf]
    · subst he; simp [Event.dispatchReqOf]
    · exact (Event.afterReq_only (hE e he).1).2.2.1
    · subst he; simp [Event.dispatchReqOf]
  · rw [List.filter_eq_nil_iff]
    intro e he
    simp at he
    rcases he with he | he | he | he | he | he | he
    · subst he; simp [Event.isSuccessEv]
    · subst he; simp [Event.isSuccessEv]
    · simp [(Event.before_only (hB e he).1).2.2.2.2.2.2.1]
    · subst he; simp [Event.isSuccessEv]
    · subst he; simp [Event.isSuccessEv]
    · simp [(Event.afterReq_only (hE e he).1).2.2.2.2.1]
    · subst he; simp [Event.isSuccessEv]
  · rw [List.filter_eq_nil_iff]
    intro e he
    simp at he
    rcases he with he | he | he | he | he | he | he
    · subst he; simp [Event.isFailureEv]
    · subst he; simp [Event.isFailureEv]
    · simp [(Event.before_only (hB e he).1).2.2.2.2.2.2.2.1]
    · subst he; simp [Event.isFailureEv]
    · subst he; simp [Event.isFailureEv]
    · simp [(Event.afterReq_only (hE e he).1).2.2.2.2.2.1]
    · subst he; simp [Event.isFailureEv]
  · rw [List.filter_eq_nil_iff]
    intro e he
    simp at he
    rcases he with he | he | he | he | he | he | he
    · subst he; simp [Event.isAfterAsyncEv]
    · subst he; simp [Event.isAfterAsyncEv]
    · simp [(Event.before_only (hB e he).1).2.2.2.2.2.2.2.2.1]
    · subst he; simp [Event.isAfterAsyncEv]
    · subst he; simp [Event.isAfterAsyncEv]
    · simp [(Event.afterReq_only (hE e he).1).2.2.2.2.2.2.1]
    · subst he; simp [Event.isAfterAsyncEv]
  · rcases hshape with ⟨hnone, _⟩ | ⟨tr1, elast, r2, hsome, htr, hall, happ⟩
    · rw [show (runBefore rngNext svc req).earlyRes =
          (beforePhase (svcContext rngNext svc) 0 svc.chain req (clear_state svc.state)).earlyRes
          from rfl] at h
      rw [hnone] at h
      cases h
    · intro e he
      rw [show (runBefore rngNext svc req).trace =
          (beforePhase (svcContext rngNext svc) 0 svc.chain req (clear_state svc.state)).trace
          from rfl, htr, List.dropLast_concat] at he
      exact hall e he
  · rcases hshape with ⟨hnone, _⟩ | ⟨tr1, elast, r2, hsome, htr, hall, happ⟩
    · rw [show (runBefore rngNext svc req).earlyRes =
          (beforePhase (svcContext rngNext svc) 0 svc.chain req (clear_state svc.state)).earlyRes
          from rfl] at h
      rw [hnone] at h
      cases h
    · have hr2 : r2 = r := by
        rw [show (runBefore rngNext svc req).earlyRes =
            (beforePhase (svcContext rngNext svc) 0 svc.chain req (clear_state svc.state)).earlyRes
            from rfl, hsome] at h
        exact (Option.some.injEq _ _ ▸ h)
      refine ⟨elast, ?_, hr2 ▸ happ⟩
      rw [show (runBefore rngNext svc req).trace =
          (beforePhase (svcContext rngNext svc) 0 svc.chain req (clear_state svc.state)).trace
          from rfl, htr, List.getLast?_concat]
  · have h1 : (runBefore rngNext svc req).trace.filterMap Event.afterReqIdx = [] := by
      rw [List.filterMap_eq_nil_iff]
      intro e he
      exact (Event.before_only (hB e he).1).2.2.1
    have h2 := early_response_idxs (svcContext rngNext svc) 0 (runBefore rngNext svc req).chain r
      (runBefore rngNext svc req).state
    have h3 : (runBefore rngNext svc req).chain.length = svc.chain.length :=
      beforePhase_chain_length (svcContext rngNext svc) 0 svc.chain req (clear_state svc.state)
    simp [List.filterMap_append, Event.afterReqIdx, h1, h2, h3, List.range_eq_range']

/-- C2: when the upstream dispatch fails, `after_request` is invoked on every
middleware of the chain in registration order with no response (`None`) and
no short-circuit, the suspending `after_request_async` is never invoked on
this path, and the final result is the left fold of the after-hook results
over the pending transport error: a response if any hook produced one (the
last producer wins, later `Next` results keep it), otherwise the propagated
transport error. -/
theorem claim2_post_failure {σ : Type}
    (upstream : HttpRequest → Except HError HttpResponse) (rngNext : Nat → Nat × Nat)
    (auth : Authority) (svc : ProxyService σ) (req : HttpRequest) (e : HError)
    (h : (runBefore rngNext svc req).earlyRes = none)
    (hd : upstream (rewriteToUpstream auth (runBefore rngNext svc req).req) = .error e) :
    ((svc.call upstream rngNext auth req).trace.filterMap Event.afterReqIdx
      = List.range svc.chain.length) ∧
    (∀ ev ∈ (svc.call upstream rngNext auth req).trace,
      ev.isAfterReqEv = true → ev.afterReqOptIn = some none) ∧
    ((svc.call upstream rngNext auth req).trace.filter Event.isAfterAsyncEv = []) ∧
    ((svc.call upstream rngNext auth req).result = List.foldl pfFoldStep (.error e)
      ((svc.call upstream rngNext auth req).trace.filterMap Event.afterFailResult)) := by
  have hB : ∀ x ∈ (runBefore rngNext svc req).trace,
      x.isBeforeEv = true ∧ x.ctxOf = some (svcContext rngNext svc) :=
    beforePhase_forall (svcContext rngNext svc) 0 svc.chain req (clear_state svc.state)
  have hF := failurePhase_forall (svcContext rngNext svc) e 0 (runBefore rngNext svc req).chain
    (runBefore rngNext svc req).state
  have hA := afterFailurePhase_forall (svcContext rngNext svc) 0
    (failurePhase (svcContext rngNext svc) e 0 (runBefore rngNext svc req).chain
      (runBefore rngNext svc req).state).chain (.error e)
    (failurePhase (svcContext rngNext svc) e 0 (runBefore rngNext svc req).chain
      (runBefore rngNext svc req).state).state
  have hlen : (failurePhase (svcContext rngNext svc) e 0 (runBefore rngNext svc req).chain
      (runBefore rngNext svc req).state).chain.length = svc.chain.length := by
    rw [failurePhase_chain_length]
    exact beforePhase_chain_length (svcContext rngNext svc) 0 svc.chain req (clear_state svc.state)
  rw [call_failure_eq upstream rngNext auth svc req e h hd]
  refine ⟨?_, ?_, ?_, ?_⟩
  · have h1 : (runBefore rngNext svc req).trace.filterMap Event.afterReqIdx = [] := by
      rw [List.filterMap_eq_nil_iff]
      intro x hx
      exact (Event.before_only (hB x hx).1).2.2.1
    have h2 : (failurePhase (svcContext rngNext svc) e 0 (runBefore rngNext svc req).chain
        (runBefore rngNext svc req).state).trace.filterMap Event.afterReqIdx = [] := by
      rw [List.filterMap_eq_nil_iff]
      intro x hx
      exact (Event.failure_only (hF x hx).1).2.1
    have h3 := afterFailurePhase_idxs (svcContext rngNext svc) 0
      (failurePhase (svcContext rngNext svc) e 0 (runBefore rngNext svc req).chain
        (runBefore rngNext svc req).state).chain (.error e)
      (failurePhase (svcContext rngNext svc) e 0 (runBefore rngNext svc req).chain
        (runBefore rngNext svc req).state).state
    simp [List.filterMap_append, Event.afterReqIdx, h1, h2, h3, hlen, List.range_eq_range']
  · intro ev hev hreq
    simp at hev
    rcases hev with hx | hx | hx | hx | hx | hx | hx | hx | hx
    · subst hx; simp [Event.isAfterReqEv] at hreq
    · subst hx; simp [Event.isAfterReqEv] at hreq
    · exact absurd (hB ev hx).1 (by simp [(Event.afterReq_only hreq).2.2.2.1])
    · subst hx; simp [Event.isAfterReqEv] at hreq
    · subst hx; simp [Event.isAfterReqEv] at hreq
    · subst hx; simp [Event.isAfterReqEv] at hreq
    · exact absurd (hF ev hx).1 (by simp [(Event.afterReq_only hreq).2.2.2.2.2.1])
    · subst hx; simp [Event.isAfterReqEv] at hreq
    · rcases hx with hx | hx | hx
      · subst hx; simp [Event.isAfterReqEv] at hreq
      · exact (hA ev hx).2.2
      · subst hx; simp [Event.isAfterReqEv] at hreq
  · rw [List.filter_eq_nil_iff]
    intro x hx
    simp at hx
    rcases hx with hx | hx | hx | hx | hx | hx | hx | hx | hx
    · subst hx; simp [Event.isAfterAsyncEv]
    · subst hx; simp [Event.isAfterAsyncEv]
    · simp [(Event.before_only (hB x hx).1).2.2.2.2.2.2.2.2.1]
    · subst hx; simp [Event.isAfterAsyncEv]
    · subst hx; simp [Event.isAfterAsyncEv]
    · subst hx; simp [Event.isAfterAsyncEv]
    · simp [(Event.failure_only (hF x hx).1).2.2.2.2.2.2.2.1]
    · subst hx; simp [Event.isAfterAsyncEv]
    · rcases hx with hx | hx | hx
      · subst hx; simp [Event.isAfterAsyncEv]
      · simp [(Event.afterReq_only (hA x hx).1).2.2.2.2.2.2.1]
      · subst hx; simp [Event.isAfterAsyncEv]
  · have h1 : (runBefore rngNext svc req).trace.filterMap Event.afterFailResult = [] := by
      rw [List.filterMap_eq_nil_iff]
      intro x hx
      exact (Event.before_only (hB x hx).1).2.2.2.2.1
    have h2 : (failurePhase (svcContext rngNext svc) e 0 (runBefore rngNext svc req).chain
        (runBefore rngNext svc req).state).trace.filterMap Event.afterFailResult = [] := by
      rw [List.filterMap_eq_nil_iff]
      intro x hx
      exact (Event.failure_only (hF x hx).1).2.2.2.1
    have h3 := afterFailurePhase_fold (svcContext rngNext svc) 0
      (failurePhase (svcContext rngNext svc) e 0 (runBefore rngNext svc req).chain
        (runBefore rngNext svc req).state).chain (.error e)
      (failurePhase (svcContext rngNext svc) e 0 (runBefore rngNext svc req).chain
        (runBefore rngNext svc req).state).state
    simp [List.filterMap_append, Event.afterFailResult, h1, h2]
    exact h3

/-- C2 witness: a concrete chain of one error-raising after-hook middleware
and one no-op middleware, with a refused upstream. -/
theorem claim2_post_failure_witness :
    (runBefore rng0 ⟨[(mwAfterErr, ()), (Middleware.noOp, ())], [], addr0, 0⟩ req0).earlyRes
        = none ∧
    upstreamRefused (rewriteToUpstream auth0
        (runBefore rng0 ⟨[(mwAfterErr, ()), (Middleware.noOp, ())], [], addr0, 0⟩ req0).req)
        = .error (.transport "connection refused") ∧
    ((ProxyService.call upstreamRefused rng0 auth0
        ⟨[(mwAfterErr, ()), (Middleware.noOp, ())], [], addr0, 0⟩ req0).trace.filterMap
        Event.afterReqIdx = List.range 2) ∧
    ((ProxyService.call upstreamRefused rng0 auth0
        ⟨[(mwAfterErr, ()), (Middleware.noOp, ())], [], addr0, 0⟩ req0).result =
      List.foldl pfFoldStep (.error (.transport "connection refused"))
        ((ProxyService.call upstreamRefused rng0 auth0
          ⟨[(mwAfterErr, ()), (Middleware.noOp, ())], [], addr0, 0⟩ req0).trace.filterMap
          Event.afterFailResult)) :=
  ⟨rfl, rfl,
   (claim2_post_failure upstreamRefused rng0 auth0
     ⟨[(mwAfterErr, ()), (Middleware.noOp, ())], [], addr0, 0⟩ req0
     (.transport "connection refused") rfl rfl).1,
   (claim2_post_failure upstreamRefused rng0 auth0
     ⟨[(mwAfterErr, ()), (Middleware.noOp, ())], [], addr0, 0⟩ req0
     (.transport "connection refused") rfl rfl).2.2.2⟩

/-- C1 witness: a chain whose first middleware responds 401 in
`before_request`, followed by a no-op middleware. -/
theorem claim1_before_short_circuit_witness :
    (runBefore rng0 ⟨[(mwRespond401, ()), (Middleware.noOp, ())], [], addr0, 0⟩ req0).earlyRes
        = some res401 ∧
    ((ProxyService.call upstreamOk rng0 auth0
        ⟨[(mwRespond401, ()), (Middleware.noOp, ())], [], addr0, 0⟩ req0).trace.filterMap
        Event.dispatchReqOf = []) ∧
    ((ProxyService.call upstreamOk rng0 auth0
        ⟨[(mwRespond401, ()), (Middleware.noOp, ())], [], addr0, 0⟩ req0).trace.filterMap
        Event.afterReqIdx = List.range 2) ∧
    ((ProxyService.call upstreamOk rng0 auth0
        ⟨[(mwRespond401, ()), (Middleware.noOp, ())], [], addr0, 0⟩ req0).result =
      .ok (early_response (svcContext rng0 ⟨[(mwRespond401, ()), (Middleware.noOp, ())], [],
          addr0, 0⟩) 0
        (runBefore rng0 ⟨[(mwRespond401, ()), (Middleware.noOp, ())], [], addr0, 0⟩ req0).chain
        res401
        (runBefore rng0 ⟨[(mwRespond401, ()), (Middleware.noOp, ())], [], addr0, 0⟩ req0).state).res) :=
  ⟨rfl,
   (claim1_before_short_circuit upstreamOk rng0 auth0
     ⟨[(mwRespond401, ()), (Middleware.noOp, ())], [], addr0, 0⟩ req0 res401 rfl).1,
   (claim1_before_short_circuit upstreamOk rng0 auth0
     ⟨[(mwRespond401, ()), (Middleware.noOp, ())], [], addr0, 0⟩ req0 res401 rfl).2.2.2.2.2.2.1,
   (claim1_before_short_circuit upstreamOk rng0 auth0
     ⟨[(mwRespond401, ()), (Middleware.noOp, ())], [], addr0, 0⟩ req0 res401 rfl).2.2.2.2.2.2.2⟩

/-- C3: when the upstream dispatch succeeds, `request_success` is invoked
exactly once on every middleware of the chain in registration order with no
short-circuit, the first hook receives the upstream response, and the
results compose left-to-right: the response fed to middleware k+1 is
middleware k's applied output (kept on `Next`, replaced on `RespondWith`,
synthesized from the error on `Err`). -/
theorem claim3_success_phase {σ : Type}
    (upstream : HttpRequest → Except HError HttpResponse) (rngNext : Nat → Nat × Nat)
    (auth : Authority) (svc : ProxyService σ) (req : HttpRequest) (res0 : HttpResponse)
    (h : (runBefore rngNext svc req).earlyRes = none)
    (hd : upstream (rewriteToUpstream auth (runBefore rngNext svc req).req) = .ok res0) :
    ((svc.call upstream rngNext auth req).trace.filterMap Event.successIdx
      = List.range svc.chain.length) ∧
    (∀ ev, ((svc.call upstream rngNext auth req).trace.filter Event.isSuccessEv).head?
      = some ev → ev.successResIn = some res0) ∧
    List.Chain' (fun a b => Event.successResIn b = Event.successApplied a)
      ((svc.call upstream rngNext auth req).trace.filter Event.isSuccessEv) := by
  have hB : ∀ x ∈ (runBefore rngNext svc req).trace,
      x.isBeforeEv = true ∧ x.ctxOf = some (svcContext rngNext svc) :=
    beforePhase_forall (svcContext rngNext svc) 0 svc.chain req (clear_state svc.state)
  have hS := successPhase_forall (svcContext rngNext svc) 0 (runBefore rngNext svc req).chain
    res0 (runBefore rngNext svc req).state
  have hA := afterSuccessPhase_forall (svcContext rngNext svc) 0
    (successPhase (svcContext rngNext svc) 0 (runBefore rngNext svc req).chain res0
      (runBefore rngNext svc req).state).chain
    (successPhase (svcContext rngNext svc) 0 (runBefore rngNext svc req).chain res0
      (runBefore rngNext svc req).state).res
    (successPhase (svcContext rngNext svc) 0 (runBefore rngNext svc req).chain res0
      (runBefore rngNext svc req).state).state
  rw [call_success_eq upstream rngNext auth svc req res0 h hd]
  have hfil : (Event.clearState :: Event.lockAcquire ::
      ((runBefore rngNext svc req).trace ++ [Event.lockRelease]) ++
      Event.dispatch (rewriteToUpstream auth (runBefore rngNext svc req).req) (.ok res0) ::
        Event.lockAcquire ::
          ((successPhase (svcContext rngNext svc) 0 (runBefore rngNext svc req).chain res0
              (runBefore rngNext svc req).state).trace ++
            Event.lockRelease :: Event.lockAcquire ::
              ((afterSuccessPhase (svcContext rngNext svc) 0
                  (successPhase (svcContext rngNext svc) 0 (runBefore rngNext svc req).chain res0
                    (runBefore rngNext svc req).state).chain
                  (successPhase (svcContext rngNext svc) 0 (runBefore rngNext svc req).chain res0
                    (runBefore rngNext svc req).state).res
                  (successPhase (svcContext rngNext svc) 0 (runBefore rngNext svc req).chain res0
                    (runBefore rngNext svc req).state).state).trace ++
                [Event.lockRelease]))).filter Event.isSuccessEv
      = (successPhase (svcContext rngNext svc) 0 (runBefore rngNext svc req).chain res0
          (runBefore rngNext svc req).state).trace := by
    have h1 : (runBefore rngNext svc req).trace.filter Event.isSuccessEv = [] := by
      rw [List.filter_eq_nil_iff]
      intro x hx
      simp [(Event.before_only (hB x hx).1).2.2.2.2.2.2.1]
    have h2 : (successPhase (svcContext rngNext svc) 0 (runBefore rngNext svc req).chain res0
        (runBefore rngNext svc req).state).trace.filter Event.isSuccessEv
        = (successPhase (svcContext rngNext svc) 0 (runBefore rngNext svc req).chain res0
          (runBefore rngNext svc req).state).trace := by
      rw [List.filter_eq_self]
      intro x hx
      exact (hS x hx).1
    have h3 : (afterSuccessPhase (svcContext rngNext svc) 0
        (successPhase (svcContext rngNext svc) 0 (runBefore rngNext svc req).chain res0
          (runBefore rngNext svc req).state).chain
        (successPhase (svcContext rngNext svc) 0 (runBefore rngNext svc req).chain res0
          (runBefore rngNext svc req).state).res
        (successPhase (svcContext rngNext svc) 0 (runBefore rngNext svc req).chain res0
          (runBefore rngNext svc req).state).state).trace.filter Event.isSuccessEv = [] := by
      rw [List.filter_eq_nil_iff]
      intro x hx
      simp [(Event.after_only (hA x hx).1).2.2.2.2.1]
    simp [List.filter_append, Event.isSuccessEv, h1, h2, h3]
  refine ⟨?_, ?_, ?_⟩
  · have h1 : (runBefore rngNext svc req).trace.filterMap Event.successIdx = [] := by
      rw [List.filterMap_eq_nil_iff]
      intro x hx
      exact (Event.before_only (hB x hx).1).1
    have h2 := successPhase_idxs (svcContext rngNext svc) 0 (runBefore rngNext svc req).chain
      res0 (runBefore rngNext svc req).state
    have h3 : (afterSuccessPhase (svcContext rngNext svc) 0
        (successPhase (svcContext rngNext svc) 0 (runBefore rngNext svc req).chain res0
          (runBefore rngNext svc req).state).chain
        (successPhase (svcContext rngNext svc) 0 (runBefore rngNext svc req).chain res0
          (runBefore rngNext svc req).state).res
        (successPhase (svcContext rngNext svc) 0 (runBefore rngNext svc req).chain res0
          (runBefore rngNext svc req).state).state).trace.filterMap Event.successIdx = [] := by
      rw [List.filterMap_eq_nil_iff]
      intro x hx
      exact (Event.after_only (hA x hx).1).1
    have hlen : (runBefore rngNext svc req).chain.length = svc.chain.length :=
      beforePhase_chain_length (svcContext rngNext svc) 0 svc.chain req (clear_state svc.state)
    simp [List.filterMap_append, Event.successIdx, h1, h2, h3, hlen, List.range_eq_range']
  · rw [hfil]
    exact successPhase_head_resIn (svcContext rngNext svc) 0 (runBefore rngNext svc req).chain
      res0 (runBefore rngNext svc req).state
  · rw [hfil]
    exact successPhase_chain (svcContext rngNext svc) 0 (runBefore rngNext svc req).chain
      res0 (runBefore rngNext svc req).state

/-- C3 witness: a chain of a response-replacing success hook and a no-op
middleware, with a successful upstream. -/
theorem claim3_success_phase_witness :
    (runBefore rng0 ⟨[(mwSuccessRespond, ()), (Middleware.noOp, ())], [], addr0, 0⟩ req0).earlyRes
        = none ∧
    upstreamOk (rewriteToUpstream auth0
        (runBefore rng0 ⟨[(mwSuccessRespond, ()), (Middleware.noOp, ())], [], addr0, 0⟩ req0).req)
        = .ok res200 ∧
    ((ProxyService.call upstreamOk rng0 auth0
        ⟨[(mwSuccessRespond, ()), (Middleware.noOp, ())], [], addr0, 0⟩ req0).trace.filterMap
        Event.successIdx = List.range 2) ∧
    List.Chain' (fun a b => Event.successResIn b = Event.successApplied a)
      ((ProxyService.call upstreamOk rng0 auth0
        ⟨[(mwSuccessRespond, ()), (Middleware.noOp, ())], [], addr0, 0⟩ req0).trace.filter
        Event.isSuccessEv) :=
  ⟨rfl, rfl,
   (claim3_success_phase upstreamOk rng0 auth0
     ⟨[(mwSuccessRespond, ()), (Middleware.noOp, ())], [], addr0, 0⟩ req0 res200 rfl rfl).1,
   (claim3_success_phase upstreamOk rng0 auth0
     ⟨[(mwSuccessRespond, ()), (Middleware.noOp, ())], [], addr0, 0⟩ req0 res200 rfl rfl).2.2⟩

/-- C10: on the post-success path the chain is traversed in a single pass:
the after-phase events are exactly `after_request` then `after_request_async`
of middleware 0, then of middleware 1, and so on over the whole chain
(adjacent per middleware), and each after-hook receives exactly the applied
output of the previous after-hook — in particular middleware k's
`after_request_async` receives the response produced by k's own
`after_request`, and middleware k+1 is reached only after both of k's
after-hooks ran. -/
theorem claim10_after_hooks_adjacent {σ : Type}
    (upstream : HttpRequest → Except HError HttpResponse) (rngNext : Nat → Nat × Nat)
    (auth : Authority) (svc : ProxyService σ) (req : HttpRequest) (res0 : HttpResponse)
    (h : (runBefore rngNext svc req).earlyRes = none)
    (hd : upstream (rewriteToUpstream auth (runBefore rngNext svc req).req) = .ok res0) :
    ((svc.call upstream rngNext auth req).trace.filterMap Event.afterKindIdx
      = (List.range svc.chain.length).flatMap (fun k => [(false, k), (true, k)])) ∧
    List.Chain' (fun a b => Event.afterResIn b = Event.afterApplied a)
      ((svc.call upstream rngNext auth req).trace.filter Event.isAfterEv) := by
  have hB : ∀ x ∈ (runBefore rngNext svc req).trace,
      x.isBeforeEv = true ∧ x.ctxOf = some (svcContext rngNext svc) :=
    beforePhase_forall (svcContext rngNext svc) 0 svc.chain req (clear_state svc.state)
  have hS := successPhase_forall (svcContext rngNext svc) 0 (runBefore rngNext svc req).chain
    res0 (runBefore rngNext svc req).state
  have hA := afterSuccessPhase_forall (svcContext rngNext svc) 0
    (successPhase (svcContext rngNext svc) 0 (runBefore rngNext svc req).chain res0
      (runBefore rngNext svc req).state).chain
    (successPhase (svcContext rngNext svc) 0 (runBefore rngNext svc req).chain res0
      (runBefore rngNext svc req).state).res
    (successPhase (svcContext rngNext svc) 0 (runBefore rngNext svc req).chain res0
      (runBefore rngNext svc req).state).state
  have hlen : (successPhase (svcContext rngNext svc) 0 (runBefore rngNext svc req).chain res0
      (runBefore rngNext svc req).state).chain.length = svc.chain.length := by
    rw [successPhase_chain_length]
    exact beforePhase_chain_length (svcContext rngNext svc) 0 svc.chain req (clear_state svc.state)
  rw [call_success_eq upstream rngNext auth svc req res0 h hd]
  refine ⟨?_, ?_⟩
  · have h1 : (runBefore rngNext svc req).trace.filterMap Event.afterKindIdx = [] := by
      rw [List.filterMap_eq_nil_iff]
      intro x hx
      exact (Event.before_only (hB x hx).1).2.2.2.1
    have h2 : (successPhase (svcContext rngNext svc) 0 (runBefore rngNext svc req).chain res0
        (runBefore rngNext svc req).state).trace.filterMap Event.afterKindIdx = [] := by
      rw [List.filterMap_eq_nil_iff]
      intro x hx
      exact (Event.success_only (hS x hx).1).2.2.1
    have h3 := afterSuccessPhase_kindIdxs (svcContext rngNext svc) 0
      (successPhase (svcContext rngNext svc) 0 (runBefore rngNext svc req).chain res0
        (runBefore rngNext svc req).state).chain
      (successPhase (svcContext rngNext svc) 0 (runBefore rngNext svc req).chain res0
        (runBefore rngNext svc req).state).res
      (successPhase (svcContext rngNext svc) 0 (runBefore rngNext svc req).chain res0
        (runBefore rngNext svc req).state).state
    simp [List.filterMap_append, Event.afterKindIdx, h1, h2, h3, hlen, List.range_eq_range']
  · have h1 : (runBefore rngNext svc req).trace.filter Event.isAfterEv = [] := by
      rw [List.filter_eq_nil_iff]
      intro x hx
      simp [(Event.before_only (hB x hx).1).2.2.2.2.2.2.2.2.2.1]
    have h2 : (successPhase (svcContext rngNext svc) 0 (runBefore rngNext svc req).chain res0
        (runBefore rngNext svc req).state).trace.filter Event.isAfterEv = [] := by
      rw [List.filter_eq_nil_iff]
      intro x hx
      simp [(Event.success_only (hS x hx).1).2.2.2.2.2.2.2.2.1]
    have h3 : (afterSuccessPhase (svcContext rngNext svc) 0
        (successPhase (svcContext rngNext svc) 0 (runBefore rngNext svc req).chain res0
          (runBefore rngNext svc req).state).chain
        (successPhase (svcContext rngNext svc) 0 (runBefore rngNext svc req).chain res0
          (runBefore rngNext svc req).state).res
        (successPhase (svcContext rngNext svc) 0 (runBefore rngNext svc req).chain res0
          (runBefore rngNext svc req).state).state).trace.filter Event.isAfterEv
        = (afterSuccessPhase (svcContext rngNext svc) 0
          (successPhase (svcContext rngNext svc) 0 (runBefore rngNext svc req).chain res0
            (runBefore rngNext svc req).state).chain
          (successPhase (svcContext rngNext svc) 0 (runBefore rngNext svc req).chain res0
            (runBefore rngNext svc req).state).res
          (successPhase (svcContext rngNext svc) 0 (runBefore rngNext svc req).chain res0
            (runBefore rngNext svc req).state).state).trace := by
      rw [List.filter_eq_self]
      intro x hx
      exact (hA x hx).1
    simp only [List.cons_append, List.append_assoc, List.singleton_append, List.filter_append,
      List.filter_cons]
    simp [Event.isAfterEv, h1, h2, h3]
    exact afterSuccessPhase_chain (svcContext rngNext svc) 0
      (successPhase (svcContext rngNext svc) 0 (runBefore rngNext svc req).chain res0
        (runBefore rngNext svc req).state).chain
      (successPhase (svcContext rngNext svc) 0 (runBefore rngNext svc req).chain res0
        (runBefore rngNext svc req).state).res
      (successPhase (svcContext rngNext svc) 0 (runBefore rngNext svc req).chain res0
        (runBefore rngNext svc req).state).state

/-- C10 witness: a chain of an error-raising after-hook middleware and a
no-op middleware, with a successful upstream. -/
theorem claim10_after_hooks_adjacent_witness :
    (runBefore rng0 ⟨[(mwAfterErr, ()), (Middleware.noOp, ())], [], addr0, 0⟩ req0).earlyRes
        = none ∧
    upstreamOk (rewriteToUpstream auth0
        (runBefore rng0 ⟨[(mwAfterErr, ()), (Middleware.noOp, ())], [], addr0, 0⟩ req0).req)
        = .ok res200 ∧
    ((ProxyService.call upstreamOk rng0 auth0
        ⟨[(mwAfterErr, ()), (Middleware.noOp, ())], [], addr0, 0⟩ req0).trace.filterMap
        Event.afterKindIdx
      = (List.range 2).flatMap (fun k => [(false, k), (true, k)])) ∧
    List.Chain' (fun a b => Event.afterResIn b = Event.afterApplied a)
      ((ProxyService.call upstreamOk rng0 auth0
        ⟨[(mwAfterErr, ()), (Middleware.noOp, ())], [], addr0, 0⟩ req0).trace.filter
        Event.isAfterEv) :=
  ⟨rfl, rfl,
   (claim10_after_hooks_adjacent upstreamOk rng0 auth0
     ⟨[(mwAfterErr, ()), (Middleware.noOp, ())], [], addr0, 0⟩ req0 res200 rfl rfl).1,
   (claim10_after_hooks_adjacent upstreamOk rng0 auth0
     ⟨[(mwAfterErr, ()), (Middleware.noOp, ())], [], addr0, 0⟩ req0 res200 rfl rfl).2⟩

/-- C7 (upstream rewrite modelled from the spec): with an empty middleware
chain, exactly one request is dispatched; it is the inbound request with
scheme, host and port replaced by the fixed upstream authority and path,
query, method, headers and body unchanged; and the upstream's response is
returned to the caller unchanged. -/
theorem claim7_empty_chain_forwarding {σ : Type}
    (upstream : HttpRequest → Except HError HttpResponse) (rngNext : Nat → Nat × Nat)
    (auth : Authority) (svc : ProxyService σ) (req : HttpRequest) (res : HttpResponse)
    (hc : svc.chain = ([] : List (Middleware σ × σ)))
    (hu : upstream (rewriteToUpstream auth req) = .ok res) :
    ((svc.call upstream rngNext auth req).trace.filterMap Event.dispatchReqOf
      = [rewriteToUpstream auth req]) ∧
    (rewriteToUpstream auth req).path = req.path ∧
    (rewriteToUpstream auth req).query = req.query ∧
    (rewriteToUpstream auth req).method = req.method ∧
    (rewriteToUpstream auth req).headers = req.headers ∧
    (rewriteToUpstream auth req).body = req.body ∧
    (rewriteToUpstream auth req).scheme = auth.scheme ∧
    (rewriteToUpstream auth req).host = auth.host ∧
    (rewriteToUpstream auth req).port = auth.port ∧
    (svc.call upstream rngNext auth req).result = .ok res := by
  have hrb : runBefore rngNext svc req
      = ⟨[], [], req, [], none⟩ := by
    simp [runBefore, hc, beforePhase, clear_state]
  rw [call_success_eq upstream rngNext auth svc req res (by rw [hrb]) (by rw [hrb]; exact hu)]
  rw [hrb]
  refine ⟨?_, rfl, rfl, rfl, rfl, rfl, rfl, rfl, rfl, ?_⟩
  · simp [successPhase, afterSuccessPhase, Event.dispatchReqOf]
  · simp [successPhase, afterSuccessPhase]

/-- C7 witness: the empty chain at a concrete request and upstream. -/
theorem claim7_empty_chain_forwarding_witness :
    (((ProxyService.call upstreamOk rng0 auth0
        (⟨[], [], addr0, 0⟩ : ProxyService Unit) req0).trace.filterMap Event.dispatchReqOf)
      = [rewriteToUpstream auth0 req0]) ∧
    (rewriteToUpstream auth0 req0).path = req0.path ∧
    (rewriteToUpstream auth0 req0).host = auth0.host ∧
    (ProxyService.call upstreamOk rng0 auth0
      (⟨[], [], addr0, 0⟩ : ProxyService Unit) req0).result = .ok res200 :=
  ⟨(claim7_empty_chain_forwarding (σ := Unit) upstreamOk rng0 auth0 ⟨[], [], addr0, 0⟩ req0 res200
      rfl rfl).1,
   (claim7_empty_chain_forwarding (σ := Unit) upstreamOk rng0 auth0 ⟨[], [], addr0, 0⟩ req0 res200
      rfl rfl).2.1,
   (claim7_empty_chain_forwarding (σ := Unit) upstreamOk rng0 auth0 ⟨[], [], addr0, 0⟩ req0 res200
      rfl rfl).2.2.2.2.2.2.2.1,
   (claim7_empty_chain_forwarding (σ := Unit) upstreamOk rng0 auth0 ⟨[], [], addr0, 0⟩ req0 res200
      rfl rfl).2.2.2.2.2.2.2.2.2⟩

/-- C9: in every phase whose hooks return an `Outcome`, a hook returning
`Err(e)` — including the suspending `before_request_async` and
`after_request_async` hooks — has the error immediately converted through
the Synthesizer and treated as that middleware's chosen response for the
remainder of the phase, never re-thrown: the before-phase short-circuits
with the synthesized response whether the synchronous or the suspending
before-hook errs; the success, early-exit and post-success after phases
continue over the rest of the chain with the synthesized response as the
current one (for the post-success path, an erring `after_request` hands the
synthesized response to the middleware's own suspending after-hook, and an
erring `after_request_async` hands it to the next middleware); and in the
post-failure path an `Err` from `after_request` turns the pending transport
error into an `Ok` response. -/
theorem claim9_hook_error_to_response {σ : Type} :
    (∀ (ctx : ServiceContext) (i : Nat) (mw : Middleware σ) (s : σ)
        (rest : List (Middleware σ × σ)) (req : HttpRequest) (st : State) (e : HError),
      (mw.before_request s req ctx st).result = .error e →
      (beforePhase ctx i ((mw, s) :: rest) req st).earlyRes = some (responseFrom e)) ∧
    (∀ (ctx : ServiceContext) (i : Nat) (mw : Middleware σ) (s : σ)
        (rest : List (Middleware σ × σ)) (req : HttpRequest) (st : State) (e : HError),
      (mw.before_request s req ctx st).result = .ok .Next →
      (mw.before_request_async (mw.before_request s req ctx st).self
        (mw.before_request s req ctx st).val ctx
        (mw.before_request s req ctx st).state).result = .error e →
      (beforePhase ctx i ((mw, s) :: rest) req st).earlyRes = some (responseFrom e)) ∧
    (∀ (ctx : ServiceContext) (i : Nat) (mw : Middleware σ) (s : σ)
        (rest : List (Middleware σ × σ)) (res : HttpResponse) (st : State) (e : HError),
      (mw.request_success s res ctx st).result = .error e →
      (successPhase ctx i ((mw, s) :: rest) res st).res =
        (successPhase ctx (i + 1) rest (responseFrom e)
          (mw.request_success s res ctx st).state).res) ∧
    (∀ (ctx : ServiceContext) (i : Nat) (mw : Middleware σ) (s : σ)
        (rest : List (Middleware σ × σ)) (res : HttpResponse) (st : State) (e : HError),
      (mw.after_request s (some res) ctx st).result = .error e →
      (early_response ctx i ((mw, s) :: rest) res st).res =
        (early_response ctx (i + 1) rest (responseFrom e)
          (mw.after_request s (some res) ctx st).state).res) ∧
    (∀ (ctx : ServiceContext) (i : Nat) (mw : Middleware σ) (s : σ)
        (rest : List (Middleware σ × σ)) (res : HttpResponse) (st : State) (e : HError),
      (mw.after_request s (some res) ctx st).result = .error e →
      ∃ ev2, (afterSuccessPhase ctx i ((mw, s) :: rest) res st).trace.tail.head? = some ev2 ∧
        ev2.afterResIn = some (responseFrom e)) ∧
    (∀ (ctx : ServiceContext) (i : Nat) (mw : Middleware σ) (s : σ)
        (rest : List (Middleware σ × σ)) (res : HttpResponse) (st : State) (e : HError),
      (mw.after_request_async (mw.after_request s (some res) ctx st).self
        (some (applyOutcome ((mw.after_request s (some res) ctx st).val.getD res)
          (mw.after_request s (some res) ctx st).result)) ctx
        (mw.after_request s (some res) ctx st).state).result = .error e →
      (afterSuccessPhase ctx i ((mw, s) :: rest) res st).res =
        (afterSuccessPhase ctx (i + 1) rest (responseFrom e)
          (mw.after_request_async (mw.after_request s (some res) ctx st).self
            (some (applyOutcome ((mw.after_request s (some res) ctx st).val.getD res)
              (mw.after_request s (some res) ctx st).result)) ctx
            (mw.after_request s (some res) ctx st).state).state).res) ∧
    (∀ (ctx : ServiceContext) (i : Nat) (mw : Middleware σ) (s : σ)
        (rest : List (Middleware σ × σ)) (st : State) (e : HError)
        (pending : Except HError HttpResponse),
      (mw.after_request s none ctx st).result = .error e →
      (afterFailurePhase ctx i ((mw, s) :: rest) pending st).pending =
        (afterFailurePhase ctx (i + 1) rest (.ok (responseFrom e))
          (mw.after_request s none ctx st).state).pending) := by
  refine ⟨?_, ?_, ?_, ?_, ?_, ?_, ?_⟩
  · intro ctx i mw s rest req st e hr
    simp [beforePhase, hr]
  · intro ctx i mw s rest req st e hr hr2
    simp [beforePhase, hr, hr2]
  · intro ctx i mw s rest res st e hr
    simp [successPhase, hr, applyOutcome]
  · intro ctx i mw s rest res st e hr
    simp [early_response, hr, applyOutcome]
  · intro ctx i mw s rest res st e hr
    refine ⟨Event.afterRequestAsync i ctx (mw.after_request s (some res) ctx st).state
      (some (responseFrom e))
      (mw.after_request_async (mw.after_request s (some res) ctx st).self
        (some (applyOutcome ((mw.after_request s (some res) ctx st).val.getD res)
          (mw.after_request s (some res) ctx st).result)) ctx
        (mw.after_request s (some res) ctx st).state).result
      (mw.after_request_async (mw.after_request s (some res) ctx st).self
        (some (applyOutcome ((mw.after_request s (some res) ctx st).val.getD res)
          (mw.after_request s (some res) ctx st).result)) ctx
        (mw.after_request s (some res) ctx st).state).val, ?_, ?_⟩
    · simp [afterSuccessPhase, hr, applyOutcome]
    · simp [Event.afterResIn]
  · intro ctx i mw s rest res st e hr
    simp only [afterSuccessPhase]
    rw [hr]
    rfl
  · intro ctx i mw s rest st e pending hr
    simp [afterFailurePhase, hr]

/-- C9 witness: hook errors from `before_request`, `before_request_async`,
`after_request_async` (post-success) and `after_request` (post-failure) are
each converted into the synthesized response at a concrete input: the
before-phase short-circuits with it, the post-success after-phase continues
with it, and the post-failure path turns the pending transport error into an
`Ok` synthesized response. -/
theorem claim9_hook_error_to_response_witness :
    (mwBeforeErr.before_request () req0 ⟨addr0, 1⟩ []).result = .error (.hook "boom") ∧
    (beforePhase ⟨addr0, 1⟩ 0 [(mwBeforeErr, ()), (Middleware.noOp, ())] req0 []).earlyRes
      = some (responseFrom (.hook "boom")) ∧
    (mwBeforeAsyncErr.before_request_async () req0 ⟨addr0, 1⟩ []).result
      = .error (.hook "async boom") ∧
    (beforePhase ⟨addr0, 1⟩ 0 [(mwBeforeAsyncErr, ()), (Middleware.noOp, ())] req0 []).earlyRes
      = some (responseFrom (.hook "async boom")) ∧
    (mwAfterAsyncErr.after_request_async () (some res200) ⟨addr0, 1⟩ []).result
      = .error (.hook "async late boom") ∧
    (afterSuccessPhase ⟨addr0, 1⟩ 0 [(mwAfterAsyncErr, ()), (Middleware.noOp, ())] res200 []).res
      = (afterSuccessPhase ⟨addr0, 1⟩ 1 [(Middleware.noOp, ())]
          (responseFrom (.hook "async late boom")) []).res ∧
    (mwAfterErr.after_request () none ⟨addr0, 1⟩ []).result = .error (.hook "late boom") ∧
    (afterFailurePhase ⟨addr0, 1⟩ 0 [(mwAfterErr, ()), (Middleware.noOp, ())]
        (.error (.transport "connection refused")) []).pending
      = (afterFailurePhase ⟨addr0, 1⟩ 1 [(Middleware.noOp, ())]
          (.ok (responseFrom (.hook "late boom")))
          (mwAfterErr.after_request () none ⟨addr0, 1⟩ []).state).pending :=
  ⟨rfl,
   (claim9_hook_error_to_response (σ := Unit)).1 ⟨addr0, 1⟩ 0 mwBeforeErr ()
     [(Middleware.noOp, ())] req0 [] (.hook "boom") rfl,
   rfl,
   (claim9_hook_error_to_response (σ := Unit)).2.1 ⟨addr0, 1⟩ 0 mwBeforeAsyncErr ()
     [(Middleware.noOp, ())] req0 [] (.hook "async boom") rfl rfl,
   rfl,
   (claim9_hook_error_to_response (σ := Unit)).2.2.2.2.2.1 ⟨addr0, 1⟩ 0 mwAfterAsyncErr ()
     [(Middleware.noOp, ())] res200 [] (.hook "async late boom") rfl,
   rfl,
   (claim9_hook_error_to_response (σ := Unit)).2.2.2.2.2.2 ⟨addr0, 1⟩ 0 mwAfterErr ()
     [(Middleware.noOp, ())] [] (.hook "late boom")
     (.error (.transport "connection refused")) rfl⟩

theorem setFailureResult_before {σ : Type} (m : Middleware σ)
    (r : σ → HError → ServiceContext → State → Except HError Unit) :
    (setFailureResult m r).before_request = m.before_request := rfl

theorem setFailureResult_beforeAsync {σ : Type} (m : Middleware σ)
    (r : σ → HError → ServiceContext → State → Except HError Unit) :
    (setFailureResult m r).before_request_async = m.before_request_async := rfl

theorem setFailureResult_after {σ : Type} (m : Middleware σ)
    (r : σ → HError → ServiceContext → State → Except HError Unit) :
    (setFailureResult m r).after_request = m.after_request := rfl

theorem setFailureResult_failure_state {σ : Type} (m : Middleware σ)
    (r : σ → HError → ServiceContext → State → Except HError Unit)
    (s : σ) (e : HError) (c : ServiceContext) (st : State) :
    ((setFailureResult m r).request_failure s e c st).state
      = (m.request_failure s e c st).state := rfl

theorem setFailureResult_failure_self {σ : Type} (m : Middleware σ)
    (r : σ → HError → ServiceContext → State → Except HError Unit)
    (s : σ) (e : HError) (c : ServiceContext) (st : State) :
    ((setFailureResult m r).request_failure s e c st).self
      = (m.request_failure s e c st).self := rfl

theorem beforePhase_map_setFailure {σ : Type}
    (G : Middleware σ → σ → HError → ServiceContext → State → Except HError Unit)
    (ctx : ServiceContext) (i : Nat) (l : List (Middleware σ × σ)) (req : HttpRequest)
    (st : State) :
    beforePhase ctx i (l.map (fun p => (setFailureResult p.1 (G p.1), p.2))) req st =
      ⟨(beforePhase ctx i l req st).trace,
       (beforePhase ctx i l req st).chain.map (fun p => (setFailureResult p.1 (G p.1), p.2)),
       (beforePhase ctx i l req st).req,
       (beforePhase ctx i l req st).state,
       (beforePhase ctx i l req st).earlyRes⟩ := by
  induction l generalizing i req st with
  | nil => simp [beforePhase]
  | cons p rest ih =>
    obtain ⟨mw, s⟩ := p
    rcases hr : (mw.before_request s req ctx st).result with e1 | mr
    · simp [beforePhase, setFailureResult_before, hr]
    · rcases mr with _ | r2
      · rcases hr2 : (mw.before_request_async (mw.before_request s req ctx st).self
            (mw.before_request s req ctx st).val ctx (mw.before_request s req ctx st).state).result
            with e2 | mr2
        · simp [beforePhase, setFailureResult_before, setFailureResult_beforeAsync, hr, hr2]
        · rcases mr2 with _ | r3
          · simp [beforePhase, setFailureResult_before, setFailureResult_beforeAsync, hr, hr2, ih]
          · simp [beforePhase, setFailureResult_before, setFailureResult_beforeAsync, hr, hr2]
      · simp [beforePhase, setFailureResult_before, hr]

theorem failurePhase_map_setFailure {σ : Type}
    (G : Middleware σ → σ → HError → ServiceContext → State → Except HError Unit)
    (ctx : ServiceContext) (err : HError) (i : Nat) (l : List (Middleware σ × σ)) (st : State) :
    (failurePhase ctx err i (l.map (fun p => (setFailureResult p.1 (G p.1), p.2))) st).chain
        = (failurePhase ctx err i l st).chain.map (fun p => (setFailureResult p.1 (G p.1), p.2)) ∧
    (failurePhase ctx err i (l.map (fun p => (setFailureResult p.1 (G p.1), p.2))) st).state
        = (failurePhase ctx err i l st).state := by
  induction l generalizing i st with
  | nil => simp [failurePhase]
  | cons p rest ih =>
    obtain ⟨mw, s⟩ := p
    obtain ⟨ih1, ih2⟩ := ih (i + 1) ((mw.request_failure s err ctx st).state)
    constructor
    · simp [failurePhase, setFailureResult_failure_state, setFailureResult_failure_self, ih1]
    · simp [failurePhase, setFailureResult_failure_state, ih2]

theorem afterFailurePhase_map_setFailure {σ : Type}
    (G : Middleware σ → σ → HError → ServiceContext → State → Except HError Unit)
    (ctx : ServiceContext) (i : Nat) (l : List (Middleware σ × σ))
    (pending : Except HError HttpResponse) (st : State) :
    (afterFailurePhase ctx i (l.map (fun p => (setFailureResult p.1 (G p.1), p.2))) pending st).pending
        = (afterFailurePhase ctx i l pending st).pending := by
  induction l generalizing i pending st with
  | nil => simp [afterFailurePhase]
  | cons p rest ih =>
    obtain ⟨mw, s⟩ := p
    simp [afterFailurePhase, setFailureResult_after, ih]

/-- C4: when the upstream dispatch fails, the notify-only `request_failure`
hook is invoked on every middleware of the chain in registration order, and
the `Result` any `request_failure` hook returns — including `Err` — never
changes the pipeline's outcome: overriding every middleware's
`request_failure` return value arbitrarily (keeping its state-store and
middleware-state effects) leaves the run's final result unchanged, so the
transport error continues unchanged into the post-failure path. -/
theorem claim4_failure_notify_only {σ : Type}
    (upstream : HttpRequest → Except HError HttpResponse) (rngNext : Nat → Nat × Nat)
    (auth : Authority) (svc : ProxyService σ) (req : HttpRequest) (e : HError)
    (h : (runBefore rngNext svc req).earlyRes = none)
    (hd : upstream (rewriteToUpstream auth (runBefore rngNext svc req).req) = .error e) :
    ((svc.call upstream rngNext auth req).trace.filterMap Event.failureIdx
      = List.range svc.chain.length) ∧
    (∀ G : Middleware σ → σ → HError → ServiceContext → State → Except HError Unit,
      (ProxyService.call upstream rngNext auth
        ⟨svc.chain.map (fun p => (setFailureResult p.1 (G p.1), p.2)), svc.state,
          svc.remote_addr, svc.rng⟩ req).result
        = (svc.call upstream rngNext auth req).result) := by
  constructor
  · have hB : ∀ x ∈ (runBefore rngNext svc req).trace,
        x.isBeforeEv = true ∧ x.ctxOf = some (svcContext rngNext svc) :=
      beforePhase_forall (svcContext rngNext svc) 0 svc.chain req (clear_state svc.state)
    have hA := afterFailurePhase_forall (svcContext rngNext svc) 0
      (failurePhase (svcContext rngNext svc) e 0 (runBefore rngNext svc req).chain
        (runBefore rngNext svc req).state).chain (.error e)
      (failurePhase (svcContext rngNext svc) e 0 (runBefore rngNext svc req).chain
        (runBefore rngNext svc req).state).state
    rw [call_failure_eq upstream rngNext auth svc req e h hd]
    have h1 : (runBefore rngNext svc req).trace.filterMap Event.failureIdx = [] := by
      rw [List.filterMap_eq_nil_iff]
      intro x hx
      exact (Event.before_only (hB x hx).1).2.1
    have h2 := failurePhase_idxs (svcContext rngNext svc) e 0 (runBefore rngNext svc req).chain
      (runBefore rngNext svc req).state
    have h3 : (afterFailurePhase (svcContext rngNext svc) 0
        (failurePhase (svcContext rngNext svc) e 0 (runBefore rngNext svc req).chain
          (runBefore rngNext svc req).state).chain (.error e)
        (failurePhase (svcContext rngNext svc) e 0 (runBefore rngNext svc req).chain
          (runBefore rngNext svc req).state).state).trace.filterMap Event.failureIdx = [] := by
      rw [List.filterMap_eq_nil_iff]
      intro x hx
      exact (Event.afterReq_only (hA x hx).1).2.1
    have hlen : (runBefore rngNext svc req).chain.length = svc.chain.length :=
      beforePhase_chain_length (svcContext rngNext svc) 0 svc.chain req (clear_state svc.state)
    simp [List.filterMap_append, Event.failureIdx, h1, h2, h3, hlen, List.range_eq_range']
  · intro G
    have hbm : runBefore rngNext
        (⟨svc.chain.map (fun p => (setFailureResult p.1 (G p.1), p.2)), svc.state,
          svc.remote_addr, svc.rng⟩ : ProxyService σ) req
        = ⟨(runBefore rngNext svc req).trace,
           (runBefore rngNext svc req).chain.map (fun p => (setFailureResult p.1 (G p.1), p.2)),
           (runBefore rngNext svc req).req,
           (runBefore rngNext svc req).state,
           (runBefore rngNext svc req).earlyRes⟩ :=
      beforePhase_map_setFailure G (svcContext rngNext svc) 0 svc.chain req
        (clear_state svc.state)
    rw [call_failure_eq upstream rngNext auth
        (⟨svc.chain.map (fun p => (setFailureResult p.1 (G p.1), p.2)), svc.state,
          svc.remote_addr, svc.rng⟩ : ProxyService σ) req e
        (by rw [hbm]; exact h) (by rw [hbm]; exact hd),
      call_failure_eq upstream rngNext auth svc req e h hd]
    rw [hbm]
    obtain ⟨hc1, hc2⟩ := failurePhase_map_setFailure G (svcContext rngNext svc) e 0
      (runBefore rngNext svc req).chain (runBefore rngNext svc req).state
    calc (afterFailurePhase (svcContext rngNext
            (⟨svc.chain.map (fun p => (setFailureResult p.1 (G p.1), p.2)), svc.state,
              svc.remote_addr, svc.rng⟩ : ProxyService σ)) 0
          (failurePhase (svcContext rngNext
              (⟨svc.chain.map (fun p => (setFailureResult p.1 (G p.1), p.2)), svc.state,
                svc.remote_addr, svc.rng⟩ : ProxyService σ)) e 0
            ((runBefore rngNext svc req).chain.map
              (fun p => (setFailureResult p.1 (G p.1), p.2)))
            (runBefore rngNext svc req).state).chain (.error e)
          (failurePhase (svcContext rngNext
              (⟨svc.chain.map (fun p => (setFailureResult p.1 (G p.1), p.2)), svc.state,
                svc.remote_addr, svc.rng⟩ : ProxyService σ)) e 0
            ((runBefore rngNext svc req).chain.map
              (fun p => (setFailureResult p.1 (G p.1), p.2)))
            (runBefore rngNext svc req).state).state).pending
        = (afterFailurePhase (svcContext rngNext svc) 0
            ((failurePhase (svcContext rngNext svc) e 0 (runBefore rngNext svc req).chain
              (runBefore rngNext svc req).state).chain.map
                (fun p => (setFailureResult p.1 (G p.1), p.2))) (.error e)
            (failurePhase (svcContext rngNext svc) e 0 (runBefore rngNext svc req).chain
              (runBefore rngNext svc req).state).state).pending := by
          rw [show svcContext rngNext
              (⟨svc.chain.map (fun p => (setFailureResult p.1 (G p.1), p.2)), svc.state,
                svc.remote_addr, svc.rng⟩ : ProxyService σ) = svcContext rngNext svc from rfl,
            hc1, hc2]
      _ = (afterFailurePhase (svcContext rngNext svc) 0
            (failurePhase (svcContext rngNext svc) e 0 (runBefore rngNext svc req).chain
              (runBefore rngNext svc req).state).chain (.error e)
            (failurePhase (svcContext rngNext svc) e 0 (runBefore rngNext svc req).chain
              (runBefore rngNext svc req).state).state).pending :=
          afterFailurePhase_map_setFailure G (svcContext rngNext svc) 0
            (failurePhase (svcContext rngNext svc) e 0 (runBefore rngNext svc req).chain
              (runBefore rngNext svc req).state).chain (.error e)
            (failurePhase (svcContext rngNext svc) e 0 (runBefore rngNext svc req).chain
              (runBefore rngNext svc req).state).state

/-- C4 witness: a chain whose first middleware's `request_failure` itself
errors; overriding every failure result with another error leaves the final
result unchanged. -/
theorem claim4_failure_notify_only_witness :
    (runBefore rng0 ⟨[(mwFailureErr, ()), (Middleware.noOp, ())], [], addr0, 0⟩ req0).earlyRes
        = none ∧
    ((ProxyService.call upstreamRefused rng0 auth0
        ⟨[(mwFailureErr, ()), (Middleware.noOp, ())], [], addr0, 0⟩ req0).trace.filterMap
        Event.failureIdx = List.range 2) ∧
    ((ProxyService.call upstreamRefused rng0 auth0
        ⟨List.map (fun p => (setFailureResult p.1
            ((fun _ _ _ _ _ => Except.error (HError.hook "override")) p.1), p.2))
          [(mwFailureErr, ()), (Middleware.noOp, ())], [], addr0, 0⟩ req0).result
      = (ProxyService.call upstreamRefused rng0 auth0
          ⟨[(mwFailureErr, ()), (Middleware.noOp, ())], [], addr0, 0⟩ req0).result) :=
  ⟨rfl,
   (claim4_failure_notify_only upstreamRefused rng0 auth0
     ⟨[(mwFailureErr, ()), (Middleware.noOp, ())], [], addr0, 0⟩ req0
     (.transport "connection refused") rfl rfl).1,
   (claim4_failure_notify_only upstreamRefused rng0 auth0
     ⟨[(mwFailureErr, ()), (Middleware.noOp, ())], [], addr0, 0⟩ req0
     (.transport "connection refused") rfl rfl).2
     (fun _ _ _ _ _ => Except.error (HError.hook "override"))⟩

/-- C6 witness for the amended per-phase lock theorem: a concrete run in
which the dispatch depth list and hook depth list are inhabited. -/
theorem claim6_lock_per_phase_witness :
    (0 : Nat) = 0 ∧ (1 : Nat) = 1 ∧
    (countLockAcquires ((ProxyService.call upstreamOk rng0 auth0
        ⟨[(Middleware.noOp, ())], [], addr0, 42⟩ req0).trace) = 2 ∨
      countLockAcquires ((ProxyService.call upstreamOk rng0 auth0
        ⟨[(Middleware.noOp, ())], [], addr0, 42⟩ req0).trace) = 3) :=
  ⟨(claim6_lock_per_phase upstreamOk rng0 auth0
      ⟨[(Middleware.noOp, ())], [], addr0, 42⟩ req0).1 0 (by decide),
   (claim6_lock_per_phase upstreamOk rng0 auth0
      ⟨[(Middleware.noOp, ())], [], addr0, 42⟩ req0).2.1 1 (by decide),
   (claim6_lock_per_phase upstreamOk rng0 auth0
      ⟨[(Middleware.noOp, ())], [], addr0, 42⟩ req0).2.2⟩

/-- C8 witness: the rng advances one step and the first before-hook event of
a concrete run carries exactly the run's context. -/
theorem claim8_context_threaded_witness :
    (ProxyService.call upstreamOk rng0 auth0
        ⟨[(Middleware.noOp, ())], [], addr0, 0⟩ req0).service.rng = (rng0 0).2 ∧
    (⟨addr0, 1⟩ : ServiceContext) = svcContext rng0 ⟨[(Middleware.noOp, ())], [], addr0, 0⟩ :=
  ⟨(claim8_context_threaded upstreamOk rng0 auth0
      ⟨[(Middleware.noOp, ())], [], addr0, 0⟩ req0).1,
   (claim8_context_threaded upstreamOk rng0 auth0
      ⟨[(Middleware.noOp, ())], [], addr0, 0⟩ req0).2
     (Event.beforeRequest 0 ⟨addr0, 1⟩ [] req0 (.ok .Next) req0) (by decide)
     ⟨addr0, 1⟩ (by decide)⟩
